import Mathlib

/-!
Verification of the condition-matching and transformation engine of
function-status-transformer (fn.go, input/v1beta1/input.go).

The Go code is shallowly embedded: Go maps become association lists with
overwrite-on-assignment semantics, Go slices become lists, pointer-typed
optional fields become Option, and functions returning (value..., error)
return a structure carrying all components of the Go tuple.  The external
regexp and text/template libraries are modelled abstractly: a pattern is
either a compile error or a compiled-regex value carrying its group names
and its matching behaviour (Go regexp guarantees that a successful
FindStringSubmatch returns one entry per capture group; that guarantee is
a field of the model).
-/

namespace FST

/-! ## Go maps as association lists -/

/-- A Go map[string]string value. -/
abbrev StrMap := List (String × String)

/-- Go map assignment m[k] = v: overwrite in place if the key exists, else add. -/
def mapSet (m : StrMap) (k v : String) : StrMap :=
  match m with
  | [] => [(k, v)]
  | (k0, v0) :: rest => if k0 = k then (k, v) :: rest else (k0, v0) :: mapSet rest k v

/-- Go map lookup m[k]. -/
def mapGet (m : StrMap) (k : String) : Option String :=
  match m with
  | [] => none
  | (k0, v0) :: rest => if k0 = k then some v0 else mapGet rest k

/-- maps.Copy(dst, src): copy every entry of src into dst, overwriting existing keys. -/
def mapsCopy (dst src : StrMap) : StrMap :=
  src.foldl (fun d p => mapSet d p.fst p.snd) dst

/-- Specification helper: the last value written for key k by the ordered
    write sequence l (later writes win).  Used to characterise folds of mapSet. -/
def lastWrite (l : List (String × String)) (k : String) : Option String :=
  match l with
  | [] => none
  | (k0, v0) :: rest =>
    match lastWrite rest k with
    | some v => some v
    | none => if k0 = k then some v0 else none

/-! ## Data model (input/v1beta1/input.go and crossplane condition types) -/

/-- One status condition on an object (xpv1.Condition; status and reason are
    strings in Go, metav1.ConditionStatus being a string type). -/
structure Condition where
  ctype : String
  status : String
  reason : String
  message : String
deriving Repr, DecidableEq

/-- An observed object reduced to what the engine reads from it: its status
    conditions (the conditionedObject interface). -/
structure ConditionedObject where
  conditions : List Condition
deriving Repr, DecidableEq

/-- xpv1 ConditionedStatus.GetCondition: the first condition of the given type,
    or a default condition with status Unknown and empty reason and message. -/
def getCondition (co : ConditionedObject) (t : String) : Condition :=
  match co.conditions.find? (fun c => c.ctype == t) with
  | some c => c
  | none => { ctype := t, status := "Unknown", reason := "", message := "" }

/-- Model of a compiled Go regular expression.  subexpNames lists the name of
    each capture group in order (the empty string for an unnamed group),
    matching SubexpNames()[1:].  findStringSubmatch returns, on a match, the
    capture-group substrings matches[1:]; Go guarantees their count equals the
    number of capture groups, recorded here as find_length. -/
structure GoRegex where
  subexpNames : List String
  matchString : String → Bool
  findStringSubmatch : String → Option (List String)
  find_length : ∀ s g, findStringSubmatch s = some g → g.length = subexpNames.length

/-- Model of regexp.Compile applied to a pattern string: the pattern either
    fails to compile (with an error message) or denotes a compiled regex. -/
inductive Pattern where
  | invalid (e : String)
  | valid (re : GoRegex)

/-- v1beta1.ConditionMatcher: a predicate on one condition type.  Unset fields
    are wildcards; message, when set, is a regex pattern. -/
structure ConditionMatcher where
  ctype : String
  status : Option String
  reason : Option String
  message : Option Pattern

/-- The Go triple (matched bool, capture groups map, error) returned by the
    matching functions. -/
structure MatchOut where
  matched : Bool
  groups : StrMap
  err : Option String
deriving Repr, DecidableEq

/-- The capture-group loop of fn.go match:
    for i := 1; i < len(matches); i++ cmGroups[SubexpNames()[i]] = matches[i]. -/
def buildGroups (names vals : List String) : StrMap :=
  (names.zip vals).foldl (fun m p => mapSet m p.fst p.snd) []

/-- fn.go match, split on the located condition: reason then status exact
    match (unset acts as wildcard), then the message regex; a regex compile
    failure is a returned error, a non-matching message is a plain non-match. -/
def matchCond (cm : ConditionMatcher) (c : Condition) : MatchOut :=
  if cm.reason.any (fun r => r != c.reason) then ⟨false, [], none⟩
  else if cm.status.any (fun s => s != c.status) then ⟨false, [], none⟩
  else
    match cm.message with
    | none => ⟨true, [], none⟩
    | some (.invalid e) => ⟨false, [], some ("cannot compile message regex: " ++ e)⟩
    | some (.valid re) =>
      match re.findStringSubmatch c.message with
      | none => ⟨false, [], none⟩
      | some vals => ⟨true, buildGroups re.subexpNames vals, none⟩

/-- fn.go match: evaluate one ConditionMatcher against an object, after
    locating the condition of the predicate's type (default Unknown if absent). -/
def matchCM (cm : ConditionMatcher) (co : ConditionedObject) : MatchOut :=
  matchCond cm (getCondition co cm.ctype)

/-! ## The four quantifier functions -/

/-- Resource maps handed to the quantifier functions, in their (fixed for the
    call) enumeration order. -/
abbrev RObjs := List (String × ConditionedObject)

/-- Inner loop of anyResourceMatchesAnyCondition over the predicates for one
    resource: some out if the loop returned (first match, or an error), none if
    it fell through to the next resource. -/
def anyAnyInner (cms : List ConditionMatcher) (r : ConditionedObject) : Option MatchOut :=
  match cms with
  | [] => none
  | cm :: rest =>
    let out := matchCM cm r
    match out.err with
    | some e => some ⟨false, [], some e⟩
    | none => if out.matched then some ⟨true, out.groups, none⟩ else anyAnyInner rest r

/-- fn.go anyResourceMatchesAnyCondition. -/
def anyResourceMatchesAnyCondition (cms : List ConditionMatcher) (rm : RObjs) : MatchOut :=
  match rm with
  | [] => ⟨false, [], none⟩
  | (_, r) :: rest =>
    match anyAnyInner cms r with
    | some out => out
    | none => anyResourceMatchesAnyCondition cms rest

/-- Inner loop of anyResourceMatchesAllConditions for one resource: match the
    predicates in order, break on the first non-match, copy groups of matched
    predicates into the shared accumulator; inl is the error return, and the
    Bool reports whether every predicate matched (matched == len(cms)). -/
def anyAllInner (cms : List ConditionMatcher) (r : ConditionedObject) (acc : StrMap) :
    Sum String (Bool × StrMap) :=
  match cms with
  | [] => .inr (true, acc)
  | cm :: rest =>
    let out := matchCM cm r
    match out.err with
    | some e => .inl e
    | none =>
      if !out.matched then .inr (false, acc)
      else anyAllInner rest r (mapsCopy acc out.groups)

/-- Outer loop of anyResourceMatchesAllConditions: the group accumulator is
    shared across resources (it is declared outside the resource loop in Go). -/
def anyAllLoop (cms : List ConditionMatcher) (rm : RObjs) (acc : StrMap) : MatchOut :=
  match rm with
  | [] => ⟨false, [], none⟩
  | (_, r) :: rest =>
    match anyAllInner cms r acc with
    | .inl e => ⟨false, [], some e⟩
    | .inr (true, acc1) => ⟨true, acc1, none⟩
    | .inr (false, acc1) => anyAllLoop cms rest acc1

/-- fn.go anyResourceMatchesAllConditions. -/
def anyResourceMatchesAllConditions (cms : List ConditionMatcher) (rm : RObjs) : MatchOut :=
  anyAllLoop cms rm []

/-- Inner loop of allResourcesMatchAnyConditions for one resource: every
    predicate is tried (no break), counting matches and copying the groups of
    each matching predicate. -/
def allAnyInner (cms : List ConditionMatcher) (r : ConditionedObject) (acc : StrMap) :
    Sum String (Nat × StrMap) :=
  match cms with
  | [] => .inr (0, acc)
  | cm :: rest =>
    let out := matchCM cm r
    match out.err with
    | some e => .inl e
    | none =>
      if !out.matched then allAnyInner rest r acc
      else
        match allAnyInner rest r (mapsCopy acc out.groups) with
        | .inl e => .inl e
        | .inr (n, acc1) => .inr (n + 1, acc1)

/-- Outer loop of allResourcesMatchAnyConditions: fail as soon as a resource
    matches zero predicates. -/
def allAnyLoop (cms : List ConditionMatcher) (rm : RObjs) (acc : StrMap) : MatchOut :=
  match rm with
  | [] => ⟨true, acc, none⟩
  | (_, r) :: rest =>
    match allAnyInner cms r acc with
    | .inl e => ⟨false, [], some e⟩
    | .inr (0, _) => ⟨false, [], none⟩
    | .inr (_ + 1, acc1) => allAnyLoop cms rest acc1

/-- fn.go allResourcesMatchAnyConditions. -/
def allResourcesMatchAnyConditions (cms : List ConditionMatcher) (rm : RObjs) : MatchOut :=
  allAnyLoop cms rm []

/-- Inner loop of allResourcesMatchAllConditions for one resource: inr none
    models the immediate (false, nil, nil) return on the first non-match. -/
def allAllInner (cms : List ConditionMatcher) (r : ConditionedObject) (acc : StrMap) :
    Sum String (Option StrMap) :=
  match cms with
  | [] => .inr (some acc)
  | cm :: rest =>
    let out := matchCM cm r
    match out.err with
    | some e => .inl e
    | none =>
      if !out.matched then .inr none
      else allAllInner rest r (mapsCopy acc out.groups)

/-- Outer loop of allResourcesMatchAllConditions. -/
def allAllLoop (cms : List ConditionMatcher) (rm : RObjs) (acc : StrMap) : MatchOut :=
  match rm with
  | [] => ⟨true, acc, none⟩
  | (_, r) :: rest =>
    match allAllInner cms r acc with
    | .inl e => ⟨false, [], some e⟩
    | .inr none => ⟨false, [], none⟩
    | .inr (some acc1) => allAllLoop cms rest acc1

/-- fn.go allResourcesMatchAllConditions. -/
def allResourcesMatchAllConditions (cms : List ConditionMatcher) (rm : RObjs) : MatchOut :=
  allAllLoop cms rm []

/-! ## Resource selection and matchResources -/

/-- Go map assignment for object-valued maps. -/
def gomapSet {α : Type} (m : List (String × α)) (k : String) (v : α) : List (String × α) :=
  match m with
  | [] => [(k, v)]
  | (k0, v0) :: rest => if k0 = k then (k, v) :: rest else (k0, v0) :: gomapSet rest k v

/-- v1beta1.MatchType. -/
inductive MatchType where
  | anyResourceMatchesAnyCondition
  | anyResourceMatchesAllConditions
  | allResourcesMatchAnyCondition
  | allResourcesMatchAllConditions
deriving Repr, DecidableEq

/-- v1beta1.ResourceMatcher: the Name field is a regex pattern over observed
    resource map keys, modelled by its compile result. -/
structure ResourceMatcher where
  name : Pattern

/-- v1beta1.Matcher. -/
structure Matcher where
  mtype : Option MatchType
  resources : List ResourceMatcher
  conditions : List ConditionMatcher
  includeCompositeAsResource : Option Bool
  includeExtraResources : Option Bool

/-- An extra resource supplied by the extra-resources function: the grouping
    key it was registered under plus the object coordinates used to build its
    synthetic map key, and its conditions. -/
structure ExtraResource where
  into : String
  group : String
  kind : String
  namespc : String
  name : String
  obj : ConditionedObject
deriving Repr, DecidableEq

/-- The synthetic key constructed in matchResources for an extra resource:
    strings.Join of extra-resource, into, group, kind, namespace, name with dots. -/
def ExtraResource.key (o : ExtraResource) : String :=
  "extra-resource." ++ o.into ++ "." ++ o.group ++ "." ++ o.kind ++ "." ++ o.namespc ++ "." ++ o.name

/-- The reserved key under which the composite resource is added. -/
def compositeResourceKey : String :=
  "function-status-transformer.reserved-keys.composite-resource"

/-- The per-pattern selection loop of matchResources: for each ResourceMatcher,
    compile its name (a compile failure aborts with the indexed error); add
    every observed resource whose key matches, and, when includeExtraResources
    is set, every extra resource whose synthetic key matches.  Observed values
    arrive already structured, so the AsObject conversion cannot fail here. -/
def selectResources (resources : List ResourceMatcher) (includeExtra : Bool)
    (observed : RObjs) (extras : List ExtraResource) (idx : Nat) (rs : RObjs) :
    Sum String RObjs :=
  match resources with
  | [] => .inr rs
  | r :: rest =>
    match r.name with
    | .invalid e =>
      .inl ("cannot compile resource key regex, resourcesIndex: " ++ toString idx ++ ": " ++ e)
    | .valid re =>
      let rs1 := observed.foldl
        (fun acc kv => if re.matchString kv.fst then gomapSet acc kv.fst kv.snd else acc) rs
      let rs2 :=
        if includeExtra then
          extras.foldl
            (fun acc o => if re.matchString o.key then gomapSet acc o.key o.obj else acc) rs1
        else rs1
      selectResources rest includeExtra observed extras (idx + 1) rs2

/-- The full resource selection of matchResources, including the composite
    resource under its reserved key when includeCompositeAsResource is set. -/
def resolveSelection (mc : Matcher) (observed : RObjs) (xr : ConditionedObject)
    (extras : List ExtraResource) : Sum String RObjs :=
  match selectResources mc.resources (mc.includeExtraResources.getD false) observed extras 0 [] with
  | .inl e => .inl e
  | .inr rs =>
    .inr (if mc.includeCompositeAsResource.getD false then gomapSet rs compositeResourceKey xr
          else rs)

/-- fn.go matchResources: resolve the selection, return no-match when the
    selection or the conditions list is empty, then dispatch on the matcher
    type (default AllResourcesMatchAllConditions). -/
def matchResources (mc : Matcher) (observed : RObjs) (xr : ConditionedObject)
    (extras : List ExtraResource) : MatchOut :=
  match resolveSelection mc observed xr extras with
  | .inl e => ⟨false, [], some e⟩
  | .inr rs =>
    if rs.isEmpty then ⟨false, [], none⟩
    else if mc.conditions.isEmpty then ⟨false, [], none⟩
    else
      match mc.mtype.getD .allResourcesMatchAllConditions with
      | .anyResourceMatchesAnyCondition => anyResourceMatchesAnyCondition mc.conditions rs
      | .anyResourceMatchesAllConditions => anyResourceMatchesAllConditions mc.conditions rs
      | .allResourcesMatchAnyCondition => allResourcesMatchAnyConditions mc.conditions rs
      | .allResourcesMatchAllConditions => allResourcesMatchAllConditions mc.conditions rs

/-! ## Templates and transforms -/

/-- Model of a text/template parse plus execute over the captured-group map:
    parsing either fails or yields a render function that may itself fail. -/
inductive TemplateSem where
  | parseError (e : String)
  | renders (f : StrMap → Sum String String)

/-- A message template: its literal text plus its template semantics. -/
structure MsgTemplate where
  raw : String
  sem : TemplateSem

/-- fn.go templateMessage: a nil message or an empty value map short-circuits
    to the literal message; otherwise parse and execute the template. -/
def templateMessage (msg : Option MsgTemplate) (values : StrMap) : Sum String (Option String) :=
  match msg, values with
  | none, _ => .inr none
  | some m, [] => .inr (some m.raw)
  | some m, _ :: _ =>
    match m.sem with
    | .parseError e => .inl ("cannot parse template: " ++ e)
    | .renders f =>
      match f values with
      | .inl e => .inl ("cannot execute template: " ++ e)
      | .inr s => .inr (some s)

/-- v1beta1.Target. -/
inductive RTarget where
  | composite
  | compositeAndClaim
deriving Repr, DecidableEq

/-- fn.go transformTarget: unset defaults to Composite. -/
def transformTarget (t : Option RTarget) : RTarget :=
  match t with
  | some .compositeAndClaim => .compositeAndClaim
  | _ => .composite

/-- fnv1 condition status values. -/
inductive RStatus where
  | condTrue
  | condFalse
  | condUnknown
deriving Repr, DecidableEq

/-- v1beta1.Condition inside a SetCondition (status is a string enum in Go). -/
structure InputCondition where
  ctype : String
  status : String
  reason : String
  message : Option MsgTemplate

/-- v1beta1.SetCondition. -/
structure SetCondition where
  target : Option RTarget
  force : Option Bool
  condition : InputCondition

/-- A condition of the RunFunctionResponse. -/
structure RspCondition where
  ctype : String
  status : RStatus
  reason : String
  message : Option String
  target : RTarget
deriving Repr, DecidableEq

/-- fnv1 event severities. -/
inductive Severity where
  | normal
  | warning
deriving Repr, DecidableEq

/-- v1beta1.Event: the type field is an open string in Go (values other than
    Normal and Warning are rejected at transform time); message is required. -/
structure Event where
  etype : Option String
  reason : Option String
  message : MsgTemplate

/-- v1beta1.CreateEvent. -/
structure CreateEvent where
  target : Option RTarget
  event : Event

/-- A result (event) of the RunFunctionResponse. -/
structure RspResult where
  severity : Severity
  reason : Option String
  message : String
  target : RTarget
deriving Repr, DecidableEq

/-- fn.go transformCondition: map the status string (anything but True and
    False becomes Unknown), default the target, render the message template. -/
def transformCondition (cs : SetCondition) (templateValues : StrMap) : Sum String RspCondition :=
  let status :=
    if cs.condition.status = "True" then RStatus.condTrue
    else if cs.condition.status = "False" then RStatus.condFalse
    else RStatus.condUnknown
  match templateMessage cs.condition.message templateValues with
  | .inl e => .inl e
  | .inr msg =>
    .inr ⟨cs.condition.ctype, status, cs.condition.reason, msg, transformTarget cs.target⟩

/-- fn.go transformEvent: resolve the severity from the event type (unset
    defaults to Normal, anything else is an error), then render the message. -/
def transformEvent (ec : CreateEvent) (templateValues : StrMap) : Sum String RspResult :=
  let t := ec.event.etype.getD "Normal"
  if t = "Normal" ∨ t = "Warning" then
    match templateMessage (some ec.event.message) templateValues with
    | .inl e => .inl e
    | .inr msg =>
      .inr ⟨if t = "Warning" then .warning else .normal, ec.event.reason, msg.getD "",
            transformTarget ec.target⟩
  else .inl ("invalid type " ++ t ++ ", must be one of [Normal, Warning]")

/-! ## Run state and the hook loop (fn.go RunFunction) -/

/-- v1beta1.StatusConditionHook. -/
structure StatusConditionHook where
  matchers : List Matcher
  setConditions : List SetCondition
  createEvents : List CreateEvent

/-- v1beta1.StatusTransformation, the function input. -/
structure StatusTransformation where
  statusConditionHooks : List StatusConditionHook

/-- The mutable state of one RunFunction evaluation: the response conditions
    and results built so far, the errored flag, the conditionsSet dedup table
    (the set of condition types marked set), the lazily fetched extra
    resources (none while unfetched), a count of fetch attempts, and the
    run-level failures recorded so far as (reason, message) pairs.  The last
    two fields instrument observations the code makes anyway: every recorded
    failure is a StatusTransformationSuccess=False condition appended to the
    response, and fetchCount counts calls of getExtraResources. -/
structure RunState where
  conditions : List RspCondition
  results : List RspResult
  errored : Bool
  conditionsSet : List String
  extraResources : Option (List ExtraResource)
  fetchCount : Nat
  failures : List (String × String)
  health : List RspCondition
deriving Repr, DecidableEq

/-- Condition type and reasons from fn.go. -/
def typeFunctionSuccess : String := "StatusTransformationSuccess"

def reasonAvailable : String := "Available"

def reasonInputFailure : String := "InputFailure"

def reasonMatchFailure : String := "MatchFailure"

def reasonSetConditionFailure : String := "SetConditionFailure"

/-- The condition appended by response.ConditionFalse(rsp, typeFunctionSuccess,
    reason).WithMessage(msg); the SDK targets the composite by default. -/
def mkFailCond (p : String × String) : RspCondition :=
  ⟨typeFunctionSuccess, .condFalse, p.fst, some p.snd, .composite⟩

/-- The condition appended by response.ConditionTrue(rsp, typeFunctionSuccess,
    reasonAvailable) for a run with no recorded failure. -/
def availableCondition : RspCondition :=
  ⟨typeFunctionSuccess, .condTrue, reasonAvailable, none, .composite⟩

/-- Recording a run-level failure: append the False health condition to the
    response and log the (reason, message) pair; health mirrors the engine's
    own appended health conditions. -/
def recordFailure (st : RunState) (reason msg : String) : RunState :=
  { st with
    conditions := st.conditions ++ [mkFailCond (reason, msg)],
    failures := st.failures ++ [(reason, msg)],
    health := st.health ++ [mkFailCond (reason, msg)] }

/-- Marking a condition type in the dedup table (conditionsSet[t] = true). -/
def markSet (l : List String) (t : String) : List String :=
  if l.contains t then l else l ++ [t]

/-- One SetCondition of a fired hook: skip silently when the type is already
    set and the setter is not forceful; otherwise transform, recording a
    failure and setting errored on error, or appending the condition and
    marking its type on success. -/
def stepSetCondition (shi sci : Nat) (scGroups : StrMap) (st : RunState)
    (cs : SetCondition) : RunState :=
  if st.conditionsSet.contains cs.condition.ctype && !(cs.force.getD false) then st
  else
    match transformCondition cs scGroups with
    | .inl e =>
      let st1 := recordFailure st reasonSetConditionFailure
        ("cannot set condition, statusConditionHookIndex: " ++ toString shi ++
          ", setConditionIndex: " ++ toString sci ++ ": " ++ e)
      { st1 with errored := true }
    | .inr c =>
      { st with
        conditions := st.conditions ++ [c],
        conditionsSet := markSet st.conditionsSet cs.condition.ctype }

/-- One CreateEvent of a fired hook: always attempted; a transform failure is
    recorded and sets errored, a success appends the result. -/
def stepCreateEvent (shi cei : Nat) (scGroups : StrMap) (st : RunState)
    (ce : CreateEvent) : RunState :=
  match transformEvent ce scGroups with
  | .inl e =>
    let st1 := recordFailure st reasonSetConditionFailure
      ("cannot create event, statusConditionHookIndex: " ++ toString shi ++
        ", createEventIndex: " ++ toString cei ++ ": " ++ e)
    { st1 with errored := true }
  | .inr r => { st with results := st.results ++ [r] }

/-- The setConditions loop of a fired hook. -/
def setConditionsLoop (shi sci : Nat) (scGroups : StrMap) (st : RunState) :
    List SetCondition → RunState
  | [] => st
  | cs :: rest => setConditionsLoop shi (sci + 1) scGroups (stepSetCondition shi sci scGroups st cs) rest

/-- The createEvents loop of a fired hook. -/
def createEventsLoop (shi cei : Nat) (scGroups : StrMap) (st : RunState) :
    List CreateEvent → RunState
  | [] => st
  | ce :: rest => createEventsLoop shi (cei + 1) scGroups (stepCreateEvent shi cei scGroups st ce) rest

/-- The lazy extra-resources fetch guarding a matcher: fetch only when the
    matcher asks for extra resources and none were loaded yet; a fetch failure
    is fatal (inl: append the InputFailure condition and return the response
    immediately), a success caches the result for the rest of the run. -/
def fetchStep (mc : Matcher) (fetchExtra : Sum String (List ExtraResource)) (st : RunState) :
    Sum RunState RunState :=
  if mc.includeExtraResources.getD false && st.extraResources.isNone then
    let st1 := { st with fetchCount := st.fetchCount + 1 }
    match fetchExtra with
    | .inl e => .inl (recordFailure st1 reasonInputFailure ("cannot load extra-resources: " ++ e))
    | .inr ex => .inr { st1 with extraResources := some ex }
  else .inr st

/-- Result of the matcher loop of one hook: a fatal early return of the whole
    run, a break on a non-matching or erroring matcher (allMatched false), or
    normal exhaustion of the list with the final allMatched value. -/
inductive MLoop where
  | fatal (st : RunState)
  | broke (st : RunState) (scGroups : StrMap)
  | exhausted (st : RunState) (scGroups : StrMap) (allMatched : Bool)

/-- The matcher loop of one hook: per matcher, run the lazy fetch guard, then
    matchResources; an error records a MatchFailure run-level failure, sets
    errored and breaks; a non-match breaks; a match copies the captured groups
    into the hook's accumulator and continues. -/
def matcherLoop (shi : Nat) (observed : RObjs) (xr : ConditionedObject)
    (fetchExtra : Sum String (List ExtraResource)) (mci : Nat) (st : RunState)
    (scGroups : StrMap) (allMatched : Bool) : List Matcher → MLoop
  | [] => .exhausted st scGroups allMatched
  | mc :: rest =>
    match fetchStep mc fetchExtra st with
    | .inl stf => .fatal stf
    | .inr st1 =>
      let out := matchResources mc observed xr (st1.extraResources.getD [])
      match out.err with
      | some e =>
        let st2 := recordFailure st1 reasonMatchFailure
          ("cannot match resources, statusConditionHookIndex: " ++ toString shi ++
            ", matchConditionIndex: " ++ toString mci ++ ": " ++ e)
        .broke { st2 with errored := true } scGroups
      | none =>
        if out.matched then
          matcherLoop shi observed xr fetchExtra (mci + 1) st1
            (mapsCopy scGroups out.groups) true rest
        else .broke st1 scGroups

/-- One hook of the run: evaluate its matchers; when they all matched, apply
    its setConditions then its createEvents; inl propagates a fatal early
    return. -/
def processHook (shi : Nat) (observed : RObjs) (xr : ConditionedObject)
    (fetchExtra : Sum String (List ExtraResource)) (st : RunState)
    (h : StatusConditionHook) : Sum RunState RunState :=
  match matcherLoop shi observed xr fetchExtra 0 st [] false h.matchers with
  | .fatal stf => .inl stf
  | .broke st1 _ => .inr st1
  | .exhausted st1 scGroups allMatched =>
    if allMatched then
      .inr (createEventsLoop shi 0 scGroups (setConditionsLoop shi 0 scGroups st1 h.setConditions)
        h.createEvents)
    else .inr st1

/-- The hook loop of RunFunction. -/
def runHooks (shi : Nat) (observed : RObjs) (xr : ConditionedObject)
    (fetchExtra : Sum String (List ExtraResource)) (st : RunState) :
    List StatusConditionHook → Sum RunState RunState
  | [] => .inr st
  | h :: rest =>
    match processHook shi observed xr fetchExtra st h with
    | .inl stf => .inl stf
    | .inr st1 => runHooks (shi + 1) observed xr fetchExtra st1 rest

/-- The state carried by either outcome of the hook loop. -/
def outState : Sum RunState RunState → RunState
  | .inl st => st
  | .inr st => st

/-- The initial run state: empty response, no error, empty dedup table,
    extra resources unfetched. -/
def initState : RunState := ⟨[], [], false, [], none, 0, [], []⟩

/-- The observable response of a run, with the instrumented failure record
    and fetch count carried along. -/
structure Response where
  conditions : List RspCondition
  results : List RspResult
  failures : List (String × String)
  fetchCount : Nat
  health : List RspCondition
deriving Repr, DecidableEq

/-- The final step of RunFunction: a fatal early return hands back the
    response as it stands; a completed pass appends the True/Available health
    condition when no failure set errored. -/
def finalize : Sum RunState RunState → RunState
  | .inl stf => stf
  | .inr st =>
    if !st.errored then
      { st with
        conditions := st.conditions ++ [availableCondition],
        health := st.health ++ [availableCondition] }
    else st

/-- fn.go RunFunction: a failed input parse or observed-XR fetch short-circuits
    with a single InputFailure condition before any hook runs; otherwise the
    hooks are evaluated in order and the run is finalized. -/
def runFunction (input : Sum String StatusTransformation)
    (xrIn : Sum String ConditionedObject) (observed : RObjs)
    (fetchExtra : Sum String (List ExtraResource)) : Response :=
  match input with
  | .inl e =>
    let msg := "cannot get Function input: " ++ e
    ⟨[mkFailCond (reasonInputFailure, msg)], [], [(reasonInputFailure, msg)], 0,
      [mkFailCond (reasonInputFailure, msg)]⟩
  | .inr input1 =>
    match xrIn with
    | .inl e =>
      let msg := "cannot get observed XR: " ++ e
      ⟨[mkFailCond (reasonInputFailure, msg)], [], [(reasonInputFailure, msg)], 0,
        [mkFailCond (reasonInputFailure, msg)]⟩
    | .inr xr =>
      let st := finalize (runHooks 0 observed xr fetchExtra initState input1.statusConditionHooks)
      ⟨st.conditions, st.results, st.failures, st.fetchCount, st.health⟩

/-! ## Specification-side helpers used in theorem statements -/

/-- Every predicate of the list matches the object, with no error. -/
def matchesAllCMs (cms : List ConditionMatcher) (r : ConditionedObject) : Prop :=
  ∀ cm ∈ cms, (matchCM cm r).matched = true ∧ (matchCM cm r).err = none

/-- The union, later entries overwriting earlier ones, of the groups captured
    by the predicates against one resource. -/
def resourceGroupsUnion (cms : List ConditionMatcher) (r : ConditionedObject) : StrMap :=
  cms.foldl (fun acc cm => mapsCopy acc (matchCM cm r).groups) []

/-- Some predicate of the list carries a valid message pattern with a capture
    group named k. -/
def keyInSomeCM (cms : List ConditionMatcher) (k : String) : Prop :=
  ∃ cm ∈ cms, ∃ re, cm.message = some (.valid re) ∧ k ∈ re.subexpNames

/-- The last condition of the given type in a condition list. -/
def lastOfType (conds : List RspCondition) (t : String) : Option RspCondition :=
  (conds.filter (fun c => c.ctype == t)).getLast?

/-- The two invariants a completed-run state keeps: the recorded failures are
    exactly the engine-appended health conditions, and errored holds exactly
    when some failure was recorded; plus the fetch accounting (at most one
    fetch, and none while the cache is empty). -/
def RInv (st : RunState) : Prop :=
  st.health = st.failures.map mkFailCond ∧ (st.errored = true ↔ st.failures ≠ []) ∧
    st.fetchCount ≤ 1 ∧ (st.extraResources = none → st.fetchCount = 0)

/-- What survives of the invariant at a fatal early return. -/
def FatalInv (st : RunState) : Prop :=
  st.health = st.failures.map mkFailCond ∧ st.failures ≠ [] ∧ st.fetchCount ≤ 1

/-! ## Concrete fixtures for counterexamples and witnesses -/

/-- A regex matching every string, with no capture groups. -/
def reAll : GoRegex where
  subexpNames := []
  matchString := fun _ => true
  findStringSubmatch := fun _ => some []
  find_length := fun _ g h => by cases h; rfl

/-- An observed object with no conditions at all. -/
def objEmpty : ConditionedObject := ⟨[]⟩

/-- A fully wildcarded predicate on condition type Ready. -/
def cmWild : ConditionMatcher := ⟨"Ready", none, none, none⟩

/-- A matcher that selects every observed resource and matches it with the
    wildcard predicate. -/
def matcherAll : Matcher := ⟨none, [⟨.valid reAll⟩], [cmWild], none, none⟩

/-- A matcher whose resource-name pattern fails to compile. -/
def matcherBadRegex : Matcher := ⟨none, [⟨.invalid "bad"⟩], [], none, none⟩

/-- A one-resource observed map. -/
def observed1 : RObjs := [("r1", objEmpty)]

/-- A hook whose only matcher dies on the bad resource-name regex. -/
def hookBadMatch : StatusConditionHook := ⟨[matcherBadRegex], [], []⟩

/-- A hook that always fires and sets a user condition whose type collides
    with the engine's own health condition type, looking exactly available. -/
def hookSetSTS : StatusConditionHook :=
  ⟨[matcherAll], [⟨none, none, ⟨typeFunctionSuccess, "True", "Available", none⟩⟩], []⟩

/-- C4 counterexample input: a failing hook followed by a hook that fakes the
    health condition. -/
def inputC4 : StatusTransformation := ⟨[hookBadMatch, hookSetSTS]⟩

/-- A hook that always fires and sets condition A. -/
def hookSetA : StatusConditionHook :=
  ⟨[matcherAll], [⟨none, none, ⟨"A", "True", "Ok", none⟩⟩], []⟩

/-- A matcher requesting the extra resources. -/
def matcherExtra : Matcher := ⟨none, [], [], none, some true⟩

/-- C7 counterexample input: a hook that emits a condition, then a hook whose
    matcher triggers the lazy extra-resources fetch. -/
def inputC7 : StatusTransformation := ⟨[hookSetA, ⟨[matcherExtra], [], []⟩]⟩

/-- A regex with one unnamed and one named capture group, matching the
    message m with captures u and e. -/
def reC8 : GoRegex where
  subexpNames := ["", "Err"]
  matchString := fun _ => false
  findStringSubmatch := fun s => if s = "m" then some ["u", "e"] else none
  find_length := fun s g h => by
    by_cases hs : s = "m"
    · simp [hs] at h
      simp [← h]
    · simp [hs] at h

/-- C8 predicate carrying the mixed named/unnamed pattern. -/
def cmC8 : ConditionMatcher := ⟨"T", none, none, some (.valid reC8)⟩

/-- C8 object whose condition of type T has message m. -/
def objC8 : ConditionedObject := ⟨[⟨"T", "True", "R", "m"⟩]⟩

/-- A regex with one group named x, capturing va on message a and vb on
    message b. -/
def reP1 : GoRegex where
  subexpNames := ["x"]
  matchString := fun _ => false
  findStringSubmatch := fun s =>
    if s = "a" then some ["va"] else if s = "b" then some ["vb"] else none
  find_length := fun s g h => by
    by_cases h1 : s = "a"
    · simp [h1] at h
      simp [← h]
    · by_cases h2 : s = "b"
      · simp [h1, h2] at h
        simp [← h]
      · simp [h1, h2] at h

/-- C3 predicate 1: a capturing message predicate on type S. -/
def cmP1 : ConditionMatcher := ⟨"S", none, none, some (.valid reP1)⟩

/-- C3 predicate 2: requires status True on type S. -/
def cmP2 : ConditionMatcher := ⟨"S", some "True", none, none⟩

/-- C3 resource A: matches predicate 1 (capturing x=va) but fails predicate 2. -/
def objA : ConditionedObject := ⟨[⟨"S", "False", "", "a"⟩]⟩

/-- C3 resource B: matches both predicates (capturing x=vb). -/
def objB : ConditionedObject := ⟨[⟨"S", "True", "", "b"⟩]⟩

/-- The run state carried by any outcome of the matcher loop. -/
def mstate : MLoop → RunState
  | .fatal st => st
  | .broke st _ => st
  | .exhausted st _ _ => st

/-! ## Lemmas about the Go map model -/

theorem mapGet_mapSet (m : StrMap) (k v k' : String) :
    mapGet (mapSet m k v) k' = if k' = k then some v else mapGet m k' := by
  induction m with
  | nil =>
    by_cases h : k = k'
    · simp [mapSet, mapGet, h]
    · simp [mapSet, mapGet, h, show ¬(k' = k) from fun hh => h hh.symm]
  | cons p rest ih =>
    obtain ⟨k0, v0⟩ := p
    by_cases h0 : k0 = k
    · subst h0
      by_cases h : k0 = k'
      · simp [mapSet, mapGet, h]
      · simp [mapSet, mapGet, h, show ¬(k' = k0) from fun hh => h hh.symm]
    · by_cases h : k0 = k'
      · subst h
        simp [mapSet, mapGet, h0, show ¬(k0 = k) from h0]
      · simp [mapSet, mapGet, h0, h, ih]

theorem mapGet_foldl_mapSet (l : List (String × String)) :
    ∀ (m0 : StrMap) (k : String),
      mapGet (l.foldl (fun m p => mapSet m p.fst p.snd) m0) k =
        match lastWrite l k with
        | some v => some v
        | none => mapGet m0 k := by
  induction l with
  | nil => intro m0 k; simp [lastWrite]
  | cons p rest ih =>
    intro m0 k
    obtain ⟨k0, v0⟩ := p
    simp only [List.foldl_cons]
    rw [ih]
    cases hlw : lastWrite rest k with
    | some v => simp [lastWrite, hlw]
    | none =>
      by_cases h : k0 = k
      · subst h
        simp [lastWrite, hlw, mapGet_mapSet]
      · simp [lastWrite, hlw, mapGet_mapSet, h,
          show ¬(k = k0) from fun hh => h hh.symm]

theorem mapGet_mapsCopy (dst src : StrMap) (k : String) :
    mapGet (mapsCopy dst src) k =
      match lastWrite src k with
      | some v => some v
      | none => mapGet dst k :=
  mapGet_foldl_mapSet src dst k

theorem mapGet_buildGroups (names vals : List String) (k : String) :
    mapGet (buildGroups names vals) k = lastWrite (names.zip vals) k := by
  rw [buildGroups, mapGet_foldl_mapSet]
  cases lastWrite (names.zip vals) k <;> simp [mapGet]

theorem lastWrite_isSome (l : List (String × String)) (k : String) :
    (lastWrite l k).isSome = true ↔ ∃ p ∈ l, p.fst = k := by
  induction l with
  | nil => simp [lastWrite]
  | cons p rest ih =>
    obtain ⟨k0, v0⟩ := p
    simp only [lastWrite]
    cases hlw : lastWrite rest k with
    | some v =>
      simp only [Option.isSome_some, true_iff]
      obtain ⟨q, hq, hqk⟩ := ih.mp (by simp [hlw])
      exact ⟨q, List.mem_cons_of_mem _ hq, hqk⟩
    | none =>
      by_cases h : k0 = k
      · subst h
        simp
      · simp only [hlw, if_neg h, Option.isSome_none, List.mem_cons]
        constructor
        · intro hc
          exact absurd hc (by simp)
        · rintro ⟨p, hp, hpk⟩
          rcases hp with hp | hp
          · subst hp
            exact absurd hpk h
          · have hmem := ih.mpr ⟨p, hp, hpk⟩
            rw [hlw] at hmem
            exact absurd hmem (by simp)

/-! ## C9: hooks with no matchers never fire -/

/-- C9: for every hook whose matchers list is empty, the hook never fires:
    processing it leaves the run state untouched (none of its setConditions
    are applied and none of its createEvents are emitted). -/
theorem hook_without_matchers_never_fires (shi : Nat) (observed : RObjs)
    (xr : ConditionedObject) (fetchExtra : Sum String (List ExtraResource))
    (st : RunState) (scs : List SetCondition) (ces : List CreateEvent) :
    processHook shi observed xr fetchExtra st ⟨[], scs, ces⟩ = .inr st := rfl

/-! ## C5: empty selection or empty conditions never match -/

/-- C5: for every matcher, if the resolved resource selection is empty or the
    conditions list is empty, matchResources returns no-match with an empty
    captured-group map and no error, regardless of the quantifier. -/
theorem empty_selection_or_conditions_no_match (mc : Matcher) (observed : RObjs)
    (xr : ConditionedObject) (extras : List ExtraResource) (rs : RObjs)
    (hsel : resolveSelection mc observed xr extras = .inr rs)
    (hempty : rs = [] ∨ mc.conditions = []) :
    matchResources mc observed xr extras = ⟨false, [], none⟩ := by
  unfold matchResources
  rw [hsel]
  rcases hempty with h | h
  · subst h
    simp
  · by_cases hrs : rs.isEmpty <;> simp [hrs, h]

/-- C5 witness: a matcher over an empty observed map resolves to an empty
    selection and never matches. -/
theorem empty_selection_or_conditions_no_match_witness :
    matchResources matcherAll [] objEmpty [] = ⟨false, [], none⟩ :=
  empty_selection_or_conditions_no_match matcherAll [] objEmpty [] []
    (by decide) (Or.inl rfl)

/-! ## C6: absent conditions default to Unknown; all-unset predicates match -/

/-- C6: a predicate whose type is absent from the object is evaluated against
    the default condition with status Unknown and empty reason and message,
    and a predicate with status, reason and message all unset matches every
    object with no captured groups and no error. -/
theorem predicate_defaults_and_wildcards :
    (∀ (co : ConditionedObject) (t : String),
        co.conditions.find? (fun c => c.ctype == t) = none →
        getCondition co t = ⟨t, "Unknown", "", ""⟩) ∧
    (∀ (cm : ConditionMatcher) (co : ConditionedObject),
        co.conditions.find? (fun c => c.ctype == cm.ctype) = none →
        matchCM cm co = matchCond cm ⟨cm.ctype, "Unknown", "", ""⟩) ∧
    (∀ (cm : ConditionMatcher) (co : ConditionedObject),
        cm.status = none → cm.reason = none → cm.message = none →
        matchCM cm co = ⟨true, [], none⟩) := by
  refine ⟨?_, ?_, ?_⟩
  · intro co t h
    simp [getCondition, h]
  · intro cm co h
    unfold matchCM
    rw [show getCondition co cm.ctype = ⟨cm.ctype, "Unknown", "", ""⟩ from by
      simp [getCondition, h]]
  · intro cm co hs hr hm
    simp [matchCM, matchCond, hs, hr, hm]

/-- C6 witness: the wildcard predicate matches the empty object, whose Ready
    condition is absent and defaults to Unknown. -/
theorem predicate_defaults_and_wildcards_witness :
    getCondition objEmpty "Ready" = ⟨"Ready", "Unknown", "", ""⟩ ∧
    matchCM cmWild objEmpty = ⟨true, [], none⟩ :=
  ⟨predicate_defaults_and_wildcards.1 objEmpty "Ready" (by decide),
   predicate_defaults_and_wildcards.2.2 cmWild objEmpty rfl rfl rfl⟩

/-! ## C10: no-match and error results never expose captured groups -/

theorem anyAnyInner_no_leak (cms : List ConditionMatcher) (r : ConditionedObject)
    (out : MatchOut) (h : anyAnyInner cms r = some out) :
    out.matched = false ∨ out.err ≠ none → out.groups = [] := by
  induction cms with
  | nil => simp [anyAnyInner] at h
  | cons cm rest ih =>
    rw [anyAnyInner] at h
    cases herr : (matchCM cm r).err with
    | some e =>
      simp only [herr] at h
      cases h
      intro _
      rfl
    | none =>
      simp only [herr] at h
      by_cases hm : (matchCM cm r).matched
      · rw [if_pos hm] at h
        cases h
        rintro (hc | hc) <;> simp at hc
      · rw [if_neg hm] at h
        exact ih h

theorem anyAllLoop_no_leak (cms : List ConditionMatcher) (rm : RObjs) :
    ∀ acc, (anyAllLoop cms rm acc).matched = false ∨ (anyAllLoop cms rm acc).err ≠ none →
      (anyAllLoop cms rm acc).groups = [] := by
  induction rm with
  | nil =>
    intro acc _
    rfl
  | cons p rest ih =>
    intro acc
    obtain ⟨key, r⟩ := p
    rw [anyAllLoop]
    cases hin : anyAllInner cms r acc with
    | inl e =>
      intro _
      rfl
    | inr q =>
      obtain ⟨b, acc1⟩ := q
      cases b
      · exact ih acc1
      · rintro (hc | hc) <;> simp at hc

theorem allAnyLoop_no_leak (cms : List ConditionMatcher) (rm : RObjs) :
    ∀ acc, (allAnyLoop cms rm acc).matched = false ∨ (allAnyLoop cms rm acc).err ≠ none →
      (allAnyLoop cms rm acc).groups = [] := by
  induction rm with
  | nil =>
    intro acc h
    rcases h with hc | hc <;> simp [allAnyLoop] at hc
  | cons p rest ih =>
    intro acc
    obtain ⟨key, r⟩ := p
    rw [allAnyLoop]
    cases hin : allAnyInner cms r acc with
    | inl e =>
      intro _
      rfl
    | inr q =>
      obtain ⟨n, acc1⟩ := q
      cases n
      · intro _
        rfl
      · exact ih acc1

theorem allAllLoop_no_leak (cms : List ConditionMatcher) (rm : RObjs) :
    ∀ acc, (allAllLoop cms rm acc).matched = false ∨ (allAllLoop cms rm acc).err ≠ none →
      (allAllLoop cms rm acc).groups = [] := by
  induction rm with
  | nil =>
    intro acc h
    rcases h with hc | hc <;> simp [allAllLoop] at hc
  | cons p rest ih =>
    intro acc
    obtain ⟨key, r⟩ := p
    rw [allAllLoop]
    cases hin : allAllInner cms r acc with
    | inl e =>
      intro _
      rfl
    | inr q =>
      cases q with
      | none =>
        intro _
        rfl
      | some acc1 => exact ih acc1

/-- C10: for every quantifier, whenever the matcher evaluation returns
    no-match or an error, the returned captured-group map is empty: no
    partially accumulated captures are exposed to the caller. -/
theorem quantifiers_no_groups_on_failure :
    (∀ (cms : List ConditionMatcher) (rm : RObjs),
        (anyResourceMatchesAnyCondition cms rm).matched = false ∨
          (anyResourceMatchesAnyCondition cms rm).err ≠ none →
        (anyResourceMatchesAnyCondition cms rm).groups = []) ∧
    (∀ (cms : List ConditionMatcher) (rm : RObjs),
        (anyResourceMatchesAllConditions cms rm).matched = false ∨
          (anyResourceMatchesAllConditions cms rm).err ≠ none →
        (anyResourceMatchesAllConditions cms rm).groups = []) ∧
    (∀ (cms : List ConditionMatcher) (rm : RObjs),
        (allResourcesMatchAnyConditions cms rm).matched = false ∨
          (allResourcesMatchAnyConditions cms rm).err ≠ none →
        (allResourcesMatchAnyConditions cms rm).groups = []) ∧
    (∀ (cms : List ConditionMatcher) (rm : RObjs),
        (allResourcesMatchAllConditions cms rm).matched = false ∨
          (allResourcesMatchAllConditions cms rm).err ≠ none →
        (allResourcesMatchAllConditions cms rm).groups = []) := by
  refine ⟨?_, ?_, ?_, ?_⟩
  · intro cms rm
    induction rm with
    | nil => intro _; rfl
    | cons p rest ih =>
      obtain ⟨key, r⟩ := p
      rw [anyResourceMatchesAnyCondition]
      cases hin : anyAnyInner cms r with
      | some out => exact anyAnyInner_no_leak cms r out hin
      | none => exact ih
  · intro cms rm
    rw [anyResourceMatchesAllConditions]
    exact anyAllLoop_no_leak cms rm []
  · intro cms rm
    rw [allResourcesMatchAnyConditions]
    exact allAnyLoop_no_leak cms rm []
  · intro cms rm
    rw [allResourcesMatchAllConditions]
    exact allAllLoop_no_leak cms rm []

/-- C10 witness: a no-match evaluation of each quantifier on a concrete
    non-matching input returns an empty group map. -/
theorem quantifiers_no_groups_on_failure_witness :
    (anyResourceMatchesAnyCondition [cmP2] [("A", objA)]).groups = [] ∧
    (anyResourceMatchesAllConditions [cmP2] [("A", objA)]).groups = [] ∧
    (allResourcesMatchAnyConditions [cmP2] [("A", objA)]).groups = [] ∧
    (allResourcesMatchAllConditions [cmP2] [("A", objA)]).groups = [] :=
  ⟨quantifiers_no_groups_on_failure.1 [cmP2] [("A", objA)] (Or.inl (by decide)),
   quantifiers_no_groups_on_failure.2.1 [cmP2] [("A", objA)] (Or.inl (by decide)),
   quantifiers_no_groups_on_failure.2.2.1 [cmP2] [("A", objA)] (Or.inl (by decide)),
   quantifiers_no_groups_on_failure.2.2.2 [cmP2] [("A", objA)] (Or.inl (by decide))⟩

/-! ## C8: named-capture propagation (unnamed groups DO contribute an entry) -/

/-- C8 counterexample: a pattern with one unnamed and one named group.  The
    capture loop writes the unnamed group under the empty-string key, so the
    returned map is not limited to entries for named groups: it holds the
    extra entry ("", u). -/
theorem message_capture_unnamed_counterexample :
    matchCM cmC8 objC8 = ⟨true, [("", "u"), ("Err", "e")], none⟩ ∧
    mapGet (matchCM cmC8 objC8).groups "" = some "u" := by
  constructor <;> decide

/-- C8 amended: when the message regex matches, looking up any key in the
    returned captured-group map yields the value of the last capture group
    carrying that name; named groups (unique in Go patterns) therefore give
    one entry each with their captured substring, while all unnamed groups
    collapse into a single entry under the empty-string key instead of
    contributing no entry; the populated keys are exactly the group names. -/
theorem message_capture_groups_amended (cm : ConditionMatcher) (co : ConditionedObject)
    (re : GoRegex) (vals : List String)
    (hmsg : cm.message = some (.valid re))
    (hreason : cm.reason.any (fun r => r != (getCondition co cm.ctype).reason) = false)
    (hstatus : cm.status.any (fun s => s != (getCondition co cm.ctype).status) = false)
    (hfind : re.findStringSubmatch (getCondition co cm.ctype).message = some vals) :
    (matchCM cm co).matched = true ∧
    (∀ k, mapGet (matchCM cm co).groups k = lastWrite (re.subexpNames.zip vals) k) ∧
    (∀ k, ((mapGet (matchCM cm co).groups k).isSome = true ↔ k ∈ re.subexpNames)) := by
  have hout : matchCM cm co = ⟨true, buildGroups re.subexpNames vals, none⟩ := by
    unfold matchCM matchCond
    rw [hreason, hstatus, hmsg]
    simp [hfind]
  refine ⟨by rw [hout], fun k => by rw [hout]; exact mapGet_buildGroups _ _ _, fun k => ?_⟩
  rw [hout]
  show ((mapGet (buildGroups re.subexpNames vals) k).isSome = true ↔ k ∈ re.subexpNames)
  rw [mapGet_buildGroups, lastWrite_isSome]
  have hlen := re.find_length _ _ hfind
  constructor
  · rintro ⟨p, hp, hpk⟩
    rw [← hpk]
    exact (List.of_mem_zip hp).1
  · intro hk
    have hfst : (re.subexpNames.zip vals).map Prod.fst = re.subexpNames :=
      List.map_fst_zip _ _ hlen.symm.le
    rw [← hfst] at hk
    obtain ⟨p, hp, hpk⟩ := List.mem_map.mp hk
    exact ⟨p, hp, hpk⟩

/-- C8 amended witness: the mixed pattern evaluated concretely; its map keys
    are the empty string and Err, with the last-write values. -/
theorem message_capture_groups_amended_witness :
    (matchCM cmC8 objC8).matched = true ∧
    mapGet (matchCM cmC8 objC8).groups "Err" = lastWrite (reC8.subexpNames.zip ["u", "e"]) "Err" ∧
    ((mapGet (matchCM cmC8 objC8).groups "").isSome = true ↔ "" ∈ reC8.subexpNames) := by
  have h := message_capture_groups_amended cmC8 objC8 reC8 ["u", "e"] rfl rfl rfl (by decide)
  exact ⟨h.1, h.2.1 "Err", h.2.2 ""⟩

/-! ## C4 counterexample: a user setCondition can shadow the health condition -/

/-- C4 counterexample: in a run with a recorded run-level failure (hook 0 dies
    on a bad resource regex), hook 1 sets a user condition of the same type
    StatusTransformationSuccess with status True and reason Available.  The
    last condition of that type in the response is then True/Available even
    though a run-level failure was recorded, refuting both directions of the
    claim as stated over the response conditions. -/
theorem health_condition_counterexample :
    (runFunction (.inr inputC4) (.inr objEmpty) observed1 (.inr [])).failures ≠ [] ∧
    lastOfType (runFunction (.inr inputC4) (.inr objEmpty) observed1 (.inr [])).conditions
      typeFunctionSuccess = some availableCondition := by
  constructor <;> decide

/-! ## C7 counterexample: a fatal extra-resources failure keeps earlier output -/

/-- C7 counterexample: hook 0 fires and emits condition A; hook 1 then
    triggers the lazy extra-resources fetch, which fails fatally.  The
    returned response still contains the hook-produced condition A, so a
    fatal error can yield a partial result and hooks were evaluated before
    it. -/
theorem fatal_partial_result_counterexample :
    runFunction (.inr inputC7) (.inr objEmpty) observed1 (.inl "boom") =
      ⟨[⟨"A", .condTrue, "Ok", none, .composite⟩,
        mkFailCond (reasonInputFailure, "cannot load extra-resources: boom")], [],
        [(reasonInputFailure, "cannot load extra-resources: boom")], 1,
        [mkFailCond (reasonInputFailure, "cannot load extra-resources: boom")]⟩ ∧
    (⟨"A", .condTrue, "Ok", none, .composite⟩ : RspCondition) ∈
      (runFunction (.inr inputC7) (.inr objEmpty) observed1 (.inl "boom")).conditions := by
  constructor <;> decide

/-! ## State lemmas for the hook loop -/

theorem subset_markSet (l : List String) (t : String) : l ⊆ markSet l t := by
  unfold markSet
  split
  · exact fun _ hx => hx
  · exact List.subset_append_left l [t]

theorem markSet_contains (l : List String) (t : String) : (markSet l t).contains t = true := by
  unfold markSet
  split
  · assumption
  · simp

theorem stepSetCondition_conditionsSet_mono (shi sci : Nat) (g : StrMap) (st : RunState)
    (cs : SetCondition) : st.conditionsSet ⊆ (stepSetCondition shi sci g st cs).conditionsSet := by
  unfold stepSetCondition
  split
  · exact fun _ hx => hx
  · cases htr : transformCondition cs g with
    | inl e => exact fun _ hx => hx
    | inr c => exact subset_markSet _ _

theorem setConditionsLoop_conditionsSet_mono (scs : List SetCondition) :
    ∀ (shi sci : Nat) (g : StrMap) (st : RunState),
      st.conditionsSet ⊆ (setConditionsLoop shi sci g st scs).conditionsSet := by
  induction scs with
  | nil => intro shi sci g st; exact fun _ hx => hx
  | cons cs rest ih =>
    intro shi sci g st
    rw [setConditionsLoop]
    exact (stepSetCondition_conditionsSet_mono shi sci g st cs).trans (ih shi (sci + 1) g _)

theorem stepCreateEvent_conditionsSet (shi cei : Nat) (g : StrMap) (st : RunState)
    (ce : CreateEvent) : (stepCreateEvent shi cei g st ce).conditionsSet = st.conditionsSet := by
  unfold stepCreateEvent
  cases transformEvent ce g <;> rfl

theorem createEventsLoop_conditionsSet (ces : List CreateEvent) :
    ∀ (shi cei : Nat) (g : StrMap) (st : RunState),
      (createEventsLoop shi cei g st ces).conditionsSet = st.conditionsSet := by
  induction ces with
  | nil => intro shi cei g st; rfl
  | cons ce rest ih =>
    intro shi cei g st
    rw [createEventsLoop, ih, stepCreateEvent_conditionsSet]

theorem fetchStep_conditionsSet (mc : Matcher) (fetchExtra : Sum String (List ExtraResource))
    (st : RunState) : (outState (fetchStep mc fetchExtra st)).conditionsSet = st.conditionsSet := by
  unfold fetchStep
  split
  · cases fetchExtra <;> rfl
  · rfl

theorem matcherLoop_conditionsSet (shi : Nat) (observed : RObjs) (xr : ConditionedObject)
    (fetchExtra : Sum String (List ExtraResource)) (ms : List Matcher) :
    ∀ (mci : Nat) (st : RunState) (g : StrMap) (a : Bool),
      (mstate (matcherLoop shi observed xr fetchExtra mci st g a ms)).conditionsSet =
        st.conditionsSet := by
  induction ms with
  | nil => intro mci st g a; rfl
  | cons mc rest ih =>
    intro mci st g a
    rw [matcherLoop]
    cases hf : fetchStep mc fetchExtra st with
    | inl stf =>
      have h1 := fetchStep_conditionsSet mc fetchExtra st
      rw [hf] at h1
      exact h1
    | inr st1 =>
      have h1 : st1.conditionsSet = st.conditionsSet := by
        have h2 := fetchStep_conditionsSet mc fetchExtra st
        rw [hf] at h2
        exact h2
      cases herr : (matchResources mc observed xr (st1.extraResources.getD [])).err with
      | some e =>
        simp only [herr]
        exact h1
      | none =>
        simp only [herr]
        by_cases hm : (matchResources mc observed xr (st1.extraResources.getD [])).matched
        · rw [if_pos hm, ih (mci + 1) st1 (mapsCopy g (matchResources mc observed xr
            (st1.extraResources.getD [])).groups) true]
          exact h1
        · rw [if_neg hm]
          exact h1

theorem processHook_conditionsSet_mono (shi : Nat) (observed : RObjs) (xr : ConditionedObject)
    (fetchExtra : Sum String (List ExtraResource)) (st : RunState) (h : StatusConditionHook) :
    st.conditionsSet ⊆ (outState (processHook shi observed xr fetchExtra st h)).conditionsSet := by
  unfold processHook
  cases hml : matcherLoop shi observed xr fetchExtra 0 st [] false h.matchers with
  | fatal stf =>
    have h1 : stf.conditionsSet = st.conditionsSet := by
      have h0 := matcherLoop_conditionsSet shi observed xr fetchExtra h.matchers 0 st [] false
      rw [hml] at h0
      exact h0
    have h2 : st.conditionsSet ⊆ stf.conditionsSet := by
      rw [h1]
      exact fun _ hx => hx
    exact h2
  | broke st1 g1 =>
    have h1 : st1.conditionsSet = st.conditionsSet := by
      have h0 := matcherLoop_conditionsSet shi observed xr fetchExtra h.matchers 0 st [] false
      rw [hml] at h0
      exact h0
    have h2 : st.conditionsSet ⊆ st1.conditionsSet := by
      rw [h1]
      exact fun _ hx => hx
    exact h2
  | exhausted st1 g1 a1 =>
    have h1 : st1.conditionsSet = st.conditionsSet := by
      have h0 := matcherLoop_conditionsSet shi observed xr fetchExtra h.matchers 0 st [] false
      rw [hml] at h0
      exact h0
    cases a1 with
    | false =>
      have h2 : st.conditionsSet ⊆ st1.conditionsSet := by
        rw [h1]
        exact fun _ hx => hx
      exact h2
    | true =>
      have h2 : st.conditionsSet ⊆ (createEventsLoop shi 0 g1
          (setConditionsLoop shi 0 g1 st1 h.setConditions) h.createEvents).conditionsSet := by
        rw [createEventsLoop_conditionsSet, ← h1]
        exact setConditionsLoop_conditionsSet_mono h.setConditions shi 0 g1 st1
      exact h2

theorem runHooks_conditionsSet_mono (observed : RObjs) (xr : ConditionedObject)
    (fetchExtra : Sum String (List ExtraResource)) (hooks : List StatusConditionHook) :
    ∀ (shi : Nat) (st : RunState),
      st.conditionsSet ⊆ (outState (runHooks shi observed xr fetchExtra st hooks)).conditionsSet := by
  induction hooks with
  | nil => intro shi st; exact fun _ hx => hx
  | cons h rest ih =>
    intro shi st
    rw [runHooks]
    cases hph : processHook shi observed xr fetchExtra st h with
    | inl stf =>
      have h1 := processHook_conditionsSet_mono shi observed xr fetchExtra st h
      rw [hph] at h1
      exact h1
    | inr st1 =>
      have h1 := processHook_conditionsSet_mono shi observed xr fetchExtra st h
      rw [hph] at h1
      exact h1.trans (ih (shi + 1) st1)

/-! ## Invariant preservation for the run-level bookkeeping -/

theorem RInv_initState : RInv initState := by
  refine ⟨rfl, by simp [initState], by simp [initState], fun _ => rfl⟩

theorem RInv_recordFailure_errored (st : RunState) (r m : String) (h : RInv st) :
    RInv { recordFailure st r m with errored := true } := by
  obtain ⟨h1, h2, h3, h4⟩ := h
  refine ⟨?_, ?_, h3, h4⟩
  · simp [recordFailure, h1]
  · simp [recordFailure]

theorem RInv_stepSetCondition (shi sci : Nat) (g : StrMap) (st : RunState) (cs : SetCondition)
    (h : RInv st) : RInv (stepSetCondition shi sci g st cs) := by
  unfold stepSetCondition
  split
  · exact h
  · cases htr : transformCondition cs g with
    | inl e => exact RInv_recordFailure_errored st reasonSetConditionFailure _ h
    | inr c =>
      obtain ⟨h1, h2, h3, h4⟩ := h
      exact ⟨h1, h2, h3, h4⟩

theorem RInv_setConditionsLoop (scs : List SetCondition) :
    ∀ (shi sci : Nat) (g : StrMap) (st : RunState), RInv st →
      RInv (setConditionsLoop shi sci g st scs) := by
  induction scs with
  | nil => intro shi sci g st h; exact h
  | cons cs rest ih =>
    intro shi sci g st h
    rw [setConditionsLoop]
    exact ih shi (sci + 1) g _ (RInv_stepSetCondition shi sci g st cs h)

theorem RInv_stepCreateEvent (shi cei : Nat) (g : StrMap) (st : RunState) (ce : CreateEvent)
    (h : RInv st) : RInv (stepCreateEvent shi cei g st ce) := by
  unfold stepCreateEvent
  cases htr : transformEvent ce g with
  | inl e => exact RInv_recordFailure_errored st reasonSetConditionFailure _ h
  | inr r =>
    obtain ⟨h1, h2, h3, h4⟩ := h
    exact ⟨h1, h2, h3, h4⟩

theorem RInv_createEventsLoop (ces : List CreateEvent) :
    ∀ (shi cei : Nat) (g : StrMap) (st : RunState), RInv st →
      RInv (createEventsLoop shi cei g st ces) := by
  induction ces with
  | nil => intro shi cei g st h; exact h
  | cons ce rest ih =>
    intro shi cei g st h
    rw [createEventsLoop]
    exact ih shi (cei + 1) g _ (RInv_stepCreateEvent shi cei g st ce h)

theorem fetchStep_inv (mc : Matcher) (fetchExtra : Sum String (List ExtraResource))
    (st : RunState) (h : RInv st) :
    (∀ stf, fetchStep mc fetchExtra st = .inl stf → FatalInv stf) ∧
    (∀ st1, fetchStep mc fetchExtra st = .inr st1 → RInv st1) := by
  obtain ⟨h1, h2, h3, h4⟩ := h
  unfold fetchStep
  split
  · rename_i hguard
    have hnone : st.extraResources = none := by
      cases hex : st.extraResources with
      | none => rfl
      | some ex =>
        rw [hex] at hguard
        simp at hguard
    have hc0 : st.fetchCount = 0 := h4 hnone
    cases fetchExtra with
    | inl e =>
      constructor
      · intro stf hstf
        cases hstf
        refine ⟨?_, ?_, ?_⟩
        · simp [recordFailure, h1]
        · simp [recordFailure]
        · simp [recordFailure, hc0]
      · intro st1 hst1
        cases hst1
    | inr ex =>
      constructor
      · intro stf hstf
        cases hstf
      · intro st1 hst1
        cases hst1
        refine ⟨h1, h2, by simp [hc0], fun hcon => by simp at hcon⟩
  · constructor
    · intro stf hstf
      cases hstf
    · intro st1 hst1
      cases hst1
      exact ⟨h1, h2, h3, h4⟩

theorem matcherLoop_inv (shi : Nat) (observed : RObjs) (xr : ConditionedObject)
    (fetchExtra : Sum String (List ExtraResource)) (ms : List Matcher) :
    ∀ (mci : Nat) (st : RunState) (g : StrMap) (a : Bool), RInv st →
      (∀ stf, matcherLoop shi observed xr fetchExtra mci st g a ms = .fatal stf →
        FatalInv stf) ∧
      (∀ st1 g1, matcherLoop shi observed xr fetchExtra mci st g a ms = .broke st1 g1 →
        RInv st1) ∧
      (∀ st1 g1 a1, matcherLoop shi observed xr fetchExtra mci st g a ms =
        .exhausted st1 g1 a1 → RInv st1) := by
  induction ms with
  | nil =>
    intro mci st g a h
    refine ⟨?_, ?_, ?_⟩
    · intro stf hstf
      cases hstf
    · intro st1 g1 hb
      cases hb
    · intro st1 g1 a1 he
      cases he
      exact h
  | cons mc rest ih =>
    intro mci st g a h
    rw [matcherLoop]
    cases hf : fetchStep mc fetchExtra st with
    | inl stf0 =>
      have hfat := (fetchStep_inv mc fetchExtra st h).1 stf0 hf
      refine ⟨?_, ?_, ?_⟩
      · intro stf hstf
        cases hstf
        exact hfat
      · intro st1 g1 hb
        cases hb
      · intro st1 g1 a1 he
        cases he
    | inr st1 =>
      have hst1 := (fetchStep_inv mc fetchExtra st h).2 st1 hf
      cases herr : (matchResources mc observed xr (st1.extraResources.getD [])).err with
      | some e =>
        simp only [herr]
        refine ⟨?_, ?_, ?_⟩
        · intro stf hstf
          cases hstf
        · intro st2 g2 hb
          cases hb
          exact RInv_recordFailure_errored st1 reasonMatchFailure _ hst1
        · intro st2 g2 a2 he
          cases he
      | none =>
        simp only [herr]
        by_cases hm : (matchResources mc observed xr (st1.extraResources.getD [])).matched
        · rw [if_pos hm]
          exact ih (mci + 1) st1 (mapsCopy g
            (matchResources mc observed xr (st1.extraResources.getD [])).groups) true hst1
        · rw [if_neg hm]
          refine ⟨?_, ?_, ?_⟩
          · intro stf hstf
            cases hstf
          · intro st2 g2 hb
            cases hb
            exact hst1
          · intro st2 g2 a2 he
            cases he

theorem processHook_inv (shi : Nat) (observed : RObjs) (xr : ConditionedObject)
    (fetchExtra : Sum String (List ExtraResource)) (st : RunState) (h : StatusConditionHook)
    (hinv : RInv st) :
    (∀ stf, processHook shi observed xr fetchExtra st h = .inl stf → FatalInv stf) ∧
    (∀ st1, processHook shi observed xr fetchExtra st h = .inr st1 → RInv st1) := by
  unfold processHook
  cases hml : matcherLoop shi observed xr fetchExtra 0 st [] false h.matchers with
  | fatal stf0 =>
    have hfat := (matcherLoop_inv shi observed xr fetchExtra h.matchers 0 st [] false hinv).1
      stf0 hml
    refine ⟨?_, ?_⟩
    · intro stf hstf
      cases hstf
      exact hfat
    · intro st1 hst1
      cases hst1
  | broke st1 g1 =>
    have hb := (matcherLoop_inv shi observed xr fetchExtra h.matchers 0 st [] false hinv).2.1
      st1 g1 hml
    refine ⟨?_, ?_⟩
    · intro stf hstf
      cases hstf
    · intro st2 hst2
      cases hst2
      exact hb
  | exhausted st1 g1 a1 =>
    have he := (matcherLoop_inv shi observed xr fetchExtra h.matchers 0 st [] false hinv).2.2
      st1 g1 a1 hml
    cases a1 with
    | false =>
      refine ⟨?_, ?_⟩
      · intro stf hstf
        cases hstf
      · intro st2 hst2
        cases hst2
        exact he
    | true =>
      refine ⟨?_, ?_⟩
      · intro stf hstf
        cases hstf
      · intro st2 hst2
        cases hst2
        exact RInv_createEventsLoop h.createEvents shi 0 g1 _
          (RInv_setConditionsLoop h.setConditions shi 0 g1 st1 he)

theorem runHooks_inv (observed : RObjs) (xr : ConditionedObject)
    (fetchExtra : Sum String (List ExtraResource)) (hooks : List StatusConditionHook) :
    ∀ (shi : Nat) (st : RunState), RInv st →
      (∀ stf, runHooks shi observed xr fetchExtra st hooks = .inl stf → FatalInv stf) ∧
      (∀ st1, runHooks shi observed xr fetchExtra st hooks = .inr st1 → RInv st1) := by
  induction hooks with
  | nil =>
    intro shi st h
    refine ⟨?_, ?_⟩
    · intro stf hstf
      cases hstf
    · intro st1 hst1
      cases hst1
      exact h
  | cons hk rest ih =>
    intro shi st h
    rw [runHooks]
    cases hph : processHook shi observed xr fetchExtra st hk with
    | inl stf0 =>
      have hfat := (processHook_inv shi observed xr fetchExtra st hk h).1 stf0 hph
      refine ⟨?_, ?_⟩
      · intro stf hstf
        cases hstf
        exact hfat
      · intro st1 hst1
        cases hst1
    | inr st1 =>
      exact ih (shi + 1) st1 ((processHook_inv shi observed xr fetchExtra st hk h).2 st1 hph)

theorem getLast?_map_mkFailCond (l : List (String × String)) :
    (l.map mkFailCond).getLast? = l.getLast?.map mkFailCond := by
  induction l with
  | nil => rfl
  | cons p rest ih =>
    cases rest with
    | nil => rfl
    | cons q rest2 =>
      rw [List.map_cons, List.map_cons, List.getLast?_cons_cons, List.getLast?_cons_cons,
        ← List.map_cons]
      exact ih

/-! ## C4 amended: engine health conditions versus recorded failures -/

/-- C4 amended: for every run, the engine-appended health conditions (type
    StatusTransformationSuccess) are exactly the recorded run-level failures
    in order, followed by the True/Available condition exactly when no failure
    was recorded; in particular the run is reported available iff no failure
    was recorded, and otherwise the last engine-appended health condition
    carries the reason and message of the last recorded failure.  (The claim
    as stated over the last response condition of that type fails, because a
    user setCondition may itself use the health condition type.) -/
theorem health_conditions_amended (input : Sum String StatusTransformation)
    (xrIn : Sum String ConditionedObject) (observed : RObjs)
    (fetchExtra : Sum String (List ExtraResource)) :
    (runFunction input xrIn observed fetchExtra).health =
      (runFunction input xrIn observed fetchExtra).failures.map mkFailCond ++
        (if (runFunction input xrIn observed fetchExtra).failures = []
         then [availableCondition] else []) ∧
    ((runFunction input xrIn observed fetchExtra).failures = [] →
      (runFunction input xrIn observed fetchExtra).health = [availableCondition]) ∧
    (∀ p, (runFunction input xrIn observed fetchExtra).failures.getLast? = some p →
      (runFunction input xrIn observed fetchExtra).health.getLast? = some (mkFailCond p)) := by
  cases input with
  | inl e =>
    refine ⟨by simp [runFunction], ?_, ?_⟩
    · intro hf
      simp [runFunction] at hf
    · intro p hp
      simp only [runFunction] at hp ⊢
      simp at hp
      simp [← hp]
  | inr input1 =>
    cases xrIn with
    | inl e =>
      refine ⟨by simp [runFunction], ?_, ?_⟩
      · intro hf
        simp [runFunction] at hf
      · intro p hp
        simp only [runFunction] at hp ⊢
        simp at hp
        simp [← hp]
    | inr xr =>
      have hinv := runHooks_inv observed xr fetchExtra input1.statusConditionHooks 0 initState
        RInv_initState
      cases hrun : runHooks 0 observed xr fetchExtra initState input1.statusConditionHooks with
      | inl stf =>
        obtain ⟨hh, hne, _⟩ := hinv.1 stf hrun
        simp only [runFunction]
        simp only [hrun]
        simp only [finalize]
        refine ⟨?_, ?_, ?_⟩
        · rw [if_neg hne, List.append_nil]
          exact hh
        · intro hf
          exact absurd hf hne
        · intro p hp
          rw [hh, getLast?_map_mkFailCond, hp]
          rfl
      | inr st =>
        obtain ⟨hh, herr, _, _⟩ := hinv.2 st hrun
        simp only [runFunction]
        simp only [hrun]
        simp only [finalize]
        by_cases he : st.errored = true
        · have hne := herr.mp he
          simp only [he, Bool.not_true, Bool.false_eq_true, if_false]
          refine ⟨?_, ?_, ?_⟩
          · rw [if_neg hne, List.append_nil]
            exact hh
          · intro hf
            exact absurd hf hne
          · intro p hp
            rw [hh, getLast?_map_mkFailCond, hp]
            rfl
        · have hfe : st.failures = [] := by
            by_contra hc
            exact he (herr.mpr hc)
          have he2 : st.errored = false := by
            cases hb : st.errored
            · rfl
            · exact absurd hb he
          simp only [he2, Bool.not_false, if_true]
          refine ⟨?_, ?_, ?_⟩
          · rw [hfe] at hh ⊢
            simp only [List.map_nil, if_pos rfl, List.nil_append]
            rw [show st.health = [] from by simpa using hh]
            rfl
          · intro _
            rw [show st.health = [] from by rw [hfe] at hh; simpa using hh]
            rfl
          · intro p hp
            rw [hfe] at hp
            cases hp

/-- C4 amended witness: a run with no hooks records no failure and reports a
    single Available health condition. -/
theorem health_conditions_amended_witness :
    (runFunction (.inr ⟨[]⟩) (.inr objEmpty) [] (.inr [])).failures = [] ∧
    (runFunction (.inr ⟨[]⟩) (.inr objEmpty) [] (.inr [])).health = [availableCondition] :=
  ⟨by decide,
   (health_conditions_amended (.inr ⟨[]⟩) (.inr objEmpty) [] (.inr [])).2.1 (by decide)⟩

/-! ## C7 amended: fatal errors, laziness and partial results -/

theorem runHooks_append (observed : RObjs) (xr : ConditionedObject)
    (fetchExtra : Sum String (List ExtraResource)) (l1 : List StatusConditionHook) :
    ∀ (l2 : List StatusConditionHook) (shi : Nat) (st : RunState),
      runHooks shi observed xr fetchExtra st (l1 ++ l2) =
        match runHooks shi observed xr fetchExtra st l1 with
        | .inl stf => .inl stf
        | .inr st1 => runHooks (shi + l1.length) observed xr fetchExtra st1 l2 := by
  induction l1 with
  | nil =>
    intro l2 shi st
    simp [runHooks]
  | cons h rest ih =>
    intro l2 shi st
    rw [List.cons_append, runHooks, runHooks]
    cases processHook shi observed xr fetchExtra st h with
    | inl stf => rfl
    | inr st1 =>
      show runHooks (shi + 1) observed xr fetchExtra st1 (rest ++ l2) =
        match runHooks (shi + 1) observed xr fetchExtra st1 rest with
        | Sum.inl stf => Sum.inl stf
        | Sum.inr st2 => runHooks (shi + (h :: rest).length) observed xr fetchExtra st2 l2
      rw [ih]
      simp only [List.length_cons,
        show shi + 1 + rest.length = shi + (rest.length + 1) from by omega]

theorem matcherLoop_fetch_fatal (shi : Nat) (observed : RObjs) (xr : ConditionedObject)
    (e : String) (mci : Nat) (st : RunState) (g : StrMap) (a : Bool) (mc : Matcher)
    (post : List Matcher) (hreq : mc.includeExtraResources.getD false = true)
    (hnone : st.extraResources = none) :
    matcherLoop shi observed xr (.inl e) mci st g a (mc :: post) =
      .fatal (recordFailure { st with fetchCount := st.fetchCount + 1 } reasonInputFailure
        ("cannot load extra-resources: " ++ e)) := by
  rw [matcherLoop]
  rw [show fetchStep mc (.inl e) st =
      .inl (recordFailure { st with fetchCount := st.fetchCount + 1 } reasonInputFailure
        ("cannot load extra-resources: " ++ e)) from by
    unfold fetchStep
    rw [hreq, hnone]
    simp]

theorem processHook_fetch_fatal (shi : Nat) (observed : RObjs) (xr : ConditionedObject)
    (e : String) (st : RunState) (mc : Matcher) (post : List Matcher)
    (scs : List SetCondition) (ces : List CreateEvent)
    (hreq : mc.includeExtraResources.getD false = true)
    (hnone : st.extraResources = none) :
    processHook shi observed xr (.inl e) st ⟨mc :: post, scs, ces⟩ =
      .inl (recordFailure { st with fetchCount := st.fetchCount + 1 } reasonInputFailure
        ("cannot load extra-resources: " ++ e)) := by
  unfold processHook
  rw [show (⟨mc :: post, scs, ces⟩ : StatusConditionHook).matchers = mc :: post from rfl]
  rw [matcherLoop_fetch_fatal shi observed xr e 0 st [] false mc post hreq hnone]

theorem finalize_fetchCount (x : Sum RunState RunState) :
    (finalize x).fetchCount = (outState x).fetchCount := by
  cases x with
  | inl stf => rfl
  | inr st =>
    cases he : st.errored <;> simp [finalize, outState, he]

/-- C7 amended: a fatal input or observed-XR failure short-circuits before any
    hook with a single InputFailure condition; every run performs the lazy
    extra-resources fetch at most once, only when a matcher with
    includeExtraResources set finds the cache empty; and a fatal fetch failure
    ends the run at that point, appending only the InputFailure condition while
    the conditions and events already emitted by earlier hooks remain in the
    returned response (so this fatal error does yield a partial result). -/
theorem fatal_error_behavior_amended :
    (∀ (e : String) (xrIn : Sum String ConditionedObject) (observed : RObjs)
        (fetchExtra : Sum String (List ExtraResource)),
        runFunction (.inl e) xrIn observed fetchExtra =
          ⟨[mkFailCond (reasonInputFailure, "cannot get Function input: " ++ e)], [],
           [(reasonInputFailure, "cannot get Function input: " ++ e)], 0,
           [mkFailCond (reasonInputFailure, "cannot get Function input: " ++ e)]⟩) ∧
    (∀ (input1 : StatusTransformation) (e : String) (observed : RObjs)
        (fetchExtra : Sum String (List ExtraResource)),
        runFunction (.inr input1) (.inl e) observed fetchExtra =
          ⟨[mkFailCond (reasonInputFailure, "cannot get observed XR: " ++ e)], [],
           [(reasonInputFailure, "cannot get observed XR: " ++ e)], 0,
           [mkFailCond (reasonInputFailure, "cannot get observed XR: " ++ e)]⟩) ∧
    (∀ (input : Sum String StatusTransformation) (xrIn : Sum String ConditionedObject)
        (observed : RObjs) (fetchExtra : Sum String (List ExtraResource)),
        (runFunction input xrIn observed fetchExtra).fetchCount ≤ 1) ∧
    (∀ (mc : Matcher) (fetchExtra : Sum String (List ExtraResource)) (st : RunState),
        mc.includeExtraResources.getD false = false → fetchStep mc fetchExtra st = .inr st) ∧
    (∀ (mc : Matcher) (fetchExtra : Sum String (List ExtraResource)) (st : RunState)
        (ex : List ExtraResource),
        st.extraResources = some ex → fetchStep mc fetchExtra st = .inr st) ∧
    (∀ (observed : RObjs) (xr : ConditionedObject) (e : String)
        (hooks1 : List StatusConditionHook) (st1 : RunState) (mc : Matcher)
        (post : List Matcher) (scs : List SetCondition) (ces : List CreateEvent)
        (rest : List StatusConditionHook),
        runHooks 0 observed xr (.inl e) initState hooks1 = .inr st1 →
        mc.includeExtraResources.getD false = true →
        st1.extraResources = none →
        runFunction (.inr ⟨hooks1 ++ ⟨mc :: post, scs, ces⟩ :: rest⟩) (.inr xr) observed
            (.inl e) =
          ⟨st1.conditions ++
             [mkFailCond (reasonInputFailure, "cannot load extra-resources: " ++ e)],
           st1.results,
           st1.failures ++ [(reasonInputFailure, "cannot load extra-resources: " ++ e)],
           st1.fetchCount + 1,
           st1.health ++
             [mkFailCond (reasonInputFailure, "cannot load extra-resources: " ++ e)]⟩) := by
  refine ⟨fun e xrIn observed fetchExtra => rfl, fun input1 e observed fetchExtra => rfl,
    ?_, ?_, ?_, ?_⟩
  · intro input xrIn observed fetchExtra
    cases input with
    | inl e => simp [runFunction]
    | inr input1 =>
      cases xrIn with
      | inl e => simp [runFunction]
      | inr xr =>
        have hinv := runHooks_inv observed xr fetchExtra input1.statusConditionHooks 0
          initState RInv_initState
        cases hrun : runHooks 0 observed xr fetchExtra initState
            input1.statusConditionHooks with
        | inl stf =>
          obtain ⟨_, _, hc⟩ := hinv.1 stf hrun
          simp only [runFunction, hrun, finalize_fetchCount]
          exact hc
        | inr st =>
          obtain ⟨_, _, hc, _⟩ := hinv.2 st hrun
          simp only [runFunction, hrun, finalize_fetchCount]
          exact hc
  · intro mc fetchExtra st hreq
    unfold fetchStep
    rw [hreq]
    simp
  · intro mc fetchExtra st ex hsome
    unfold fetchStep
    rw [hsome]
    simp
  · intro observed xr e hooks1 st1 mc post scs ces rest hrun1 hreq hnone
    simp only [runFunction]
    rw [runHooks_append, hrun1]
    simp only
    rw [runHooks, processHook_fetch_fatal (0 + hooks1.length) observed xr e st1 mc post scs
      ces hreq hnone]
    rfl

/-- C7 amended witness: the concrete two-hook run of the counterexample,
    obtained by applying the amended theorem at the state reached after the
    first hook. -/
theorem fatal_error_behavior_amended_witness :
    runFunction (.inr ⟨[hookSetA] ++ ⟨[matcherExtra], [], []⟩ :: []⟩) (.inr objEmpty) observed1
        (.inl "boom") =
      ⟨[⟨"A", .condTrue, "Ok", none, .composite⟩] ++
         [mkFailCond (reasonInputFailure, "cannot load extra-resources: boom")],
       [], [] ++ [(reasonInputFailure, "cannot load extra-resources: boom")], 0 + 1,
       [] ++ [mkFailCond (reasonInputFailure, "cannot load extra-resources: boom")]⟩ :=
  fatal_error_behavior_amended.2.2.2.2.2 observed1 objEmpty "boom" [hookSetA]
    ⟨[⟨"A", .condTrue, "Ok", none, .composite⟩], [], false, ["A"], none, 0, [], []⟩
    matcherExtra [] [] [] [] (by decide) (by decide) (by decide)

/-! ## C2: a matcher error abandons only its hook -/

theorem matcherLoop_append (shi : Nat) (observed : RObjs) (xr : ConditionedObject)
    (fetchExtra : Sum String (List ExtraResource)) (pre : List Matcher) :
    ∀ (post : List Matcher) (mci : Nat) (st : RunState) (g : StrMap) (a : Bool),
      matcherLoop shi observed xr fetchExtra mci st g a (pre ++ post) =
        match matcherLoop shi observed xr fetchExtra mci st g a pre with
        | .fatal stf => .fatal stf
        | .broke st1 g1 => .broke st1 g1
        | .exhausted st1 g1 a1 =>
            matcherLoop shi observed xr fetchExtra (mci + pre.length) st1 g1 a1 post := by
  induction pre with
  | nil =>
    intro post mci st g a
    simp [matcherLoop]
  | cons mc rest ih =>
    intro post mci st g a
    rw [List.cons_append, matcherLoop, matcherLoop]
    cases hf : fetchStep mc fetchExtra st with
    | inl stf => rfl
    | inr st1 =>
      cases herr : (matchResources mc observed xr (st1.extraResources.getD [])).err with
      | some e => simp only [herr]
      | none =>
        simp only [herr]
        by_cases hm : (matchResources mc observed xr (st1.extraResources.getD [])).matched
        · rw [if_pos hm, if_pos hm, ih]
          simp only [List.length_cons,
            show mci + 1 + rest.length = mci + (rest.length + 1) from by omega]
        · rw [if_neg hm, if_neg hm]

/-- C2: when the matcher at position pre.length of a hook fails with an error
    (a regex compile failure in a resource-name or message pattern surfaces
    this way), after the preceding matchers ran to exhaustion, the hook is
    abandoned: the remaining matchers post and the transforms scs and ces are
    never consulted, the only state change is the recorded MatchFailure
    run-level failure with errored set, and the run proceeds to the next hook
    from that state. -/
theorem hook_aborted_on_match_error (shi : Nat) (observed : RObjs) (xr : ConditionedObject)
    (fetchExtra : Sum String (List ExtraResource)) (pre post : List Matcher) (mbad : Matcher)
    (scs : List SetCondition) (ces : List CreateEvent) (rest : List StatusConditionHook)
    (st st1 st2 : RunState) (g1 : StrMap) (a1 : Bool) (e msgBad : String)
    (hpre : matcherLoop shi observed xr fetchExtra 0 st [] false pre = .exhausted st1 g1 a1)
    (hfetch : fetchStep mbad fetchExtra st1 = .inr st2)
    (herr : (matchResources mbad observed xr (st2.extraResources.getD [])).err = some e)
    (hmsg : msgBad = "cannot match resources, statusConditionHookIndex: " ++ toString shi ++
      ", matchConditionIndex: " ++ toString pre.length ++ ": " ++ e) :
    processHook shi observed xr fetchExtra st ⟨pre ++ mbad :: post, scs, ces⟩ =
      .inr { recordFailure st2 reasonMatchFailure msgBad with errored := true } ∧
    { recordFailure st2 reasonMatchFailure msgBad with errored := true }.results =
      st2.results ∧
    { recordFailure st2 reasonMatchFailure msgBad with errored := true }.conditionsSet =
      st2.conditionsSet ∧
    { recordFailure st2 reasonMatchFailure msgBad with errored := true }.conditions =
      st2.conditions ++ [mkFailCond (reasonMatchFailure, msgBad)] ∧
    { recordFailure st2 reasonMatchFailure msgBad with errored := true }.failures =
      st2.failures ++ [(reasonMatchFailure, msgBad)] ∧
    runHooks shi observed xr fetchExtra st (⟨pre ++ mbad :: post, scs, ces⟩ :: rest) =
      runHooks (shi + 1) observed xr fetchExtra
        { recordFailure st2 reasonMatchFailure msgBad with errored := true } rest := by
  subst hmsg
  have hph : processHook shi observed xr fetchExtra st ⟨pre ++ mbad :: post, scs, ces⟩ =
      .inr { recordFailure st2 reasonMatchFailure
        ("cannot match resources, statusConditionHookIndex: " ++ toString shi ++
          ", matchConditionIndex: " ++ toString pre.length ++ ": " ++ e)
        with errored := true } := by
    unfold processHook
    rw [show (⟨pre ++ mbad :: post, scs, ces⟩ : StatusConditionHook).matchers =
      pre ++ mbad :: post from rfl]
    rw [matcherLoop_append shi observed xr fetchExtra pre (mbad :: post) 0 st [] false, hpre]
    simp only
    rw [matcherLoop, hfetch]
    simp only [herr, Nat.zero_add]
  refine ⟨hph, rfl, rfl, rfl, rfl, ?_⟩
  rw [runHooks, hph]

/-- C2 witness: the bad-regex matcher as the only matcher of its hook, from
    the initial state; the hook is abandoned with exactly the recorded
    MatchFailure, and the run continues with the next hooks. -/
theorem hook_aborted_on_match_error_witness :
    processHook 0 observed1 objEmpty (.inr []) initState ⟨[matcherBadRegex], [], []⟩ =
      .inr { recordFailure initState reasonMatchFailure
        ("cannot match resources, statusConditionHookIndex: 0, matchConditionIndex: 0: " ++
          "cannot compile resource key regex, resourcesIndex: 0: bad")
        with errored := true } ∧
    runHooks 0 observed1 objEmpty (.inr []) initState (⟨[matcherBadRegex], [], []⟩ :: []) =
      runHooks 1 observed1 objEmpty (.inr [])
        { recordFailure initState reasonMatchFailure
          ("cannot match resources, statusConditionHookIndex: 0, matchConditionIndex: 0: " ++
            "cannot compile resource key regex, resourcesIndex: 0: bad")
          with errored := true } [] := by
  have h := hook_aborted_on_match_error 0 observed1 objEmpty (.inr []) [] [] matcherBadRegex
    [] [] [] initState initState initState [] false
    "cannot compile resource key regex, resourcesIndex: 0: bad"
    ("cannot match resources, statusConditionHookIndex: 0, matchConditionIndex: 0: " ++
      "cannot compile resource key regex, resourcesIndex: 0: bad")
    rfl rfl (by decide) (by decide)
  exact ⟨h.1, h.2.2.2.2.2⟩

/-! ## C1: the run-wide dedup table and the force override -/

/-- C1: the dedup table conditionsSet is keyed only by condition type and
    governs SetConditions across the whole run: a setter whose type is in the
    table and whose force is unset or false is skipped with no state change at
    all (nothing emitted, no error recorded); a forceful setter bypasses the
    guard, is emitted on successful transformation and re-marks its type; any
    successfully transformed setter leaves its type marked; and the table only
    ever grows over the rest of the run — it is never reset between hooks. -/
theorem dedup_table_policy :
    (∀ (shi sci : Nat) (g : StrMap) (st : RunState) (cs : SetCondition),
        st.conditionsSet.contains cs.condition.ctype = true →
        cs.force.getD false = false →
        stepSetCondition shi sci g st cs = st) ∧
    (∀ (shi sci : Nat) (g : StrMap) (st : RunState) (cs : SetCondition) (c : RspCondition),
        cs.force.getD false = true →
        transformCondition cs g = .inr c →
        stepSetCondition shi sci g st cs =
          { st with conditions := st.conditions ++ [c],
                    conditionsSet := markSet st.conditionsSet cs.condition.ctype }) ∧
    (∀ (shi sci : Nat) (g : StrMap) (st : RunState) (cs : SetCondition) (c : RspCondition),
        transformCondition cs g = .inr c →
        (stepSetCondition shi sci g st cs).conditionsSet.contains cs.condition.ctype = true) ∧
    (∀ (shi : Nat) (observed : RObjs) (xr : ConditionedObject)
        (fetchExtra : Sum String (List ExtraResource)) (st : RunState)
        (hooks : List StatusConditionHook),
        st.conditionsSet ⊆
          (outState (runHooks shi observed xr fetchExtra st hooks)).conditionsSet) := by
  refine ⟨?_, ?_, ?_, ?_⟩
  · intro shi sci g st cs hcontains hforce
    unfold stepSetCondition
    rw [if_pos (by rw [hcontains, hforce]; rfl)]
  · intro shi sci g st cs c hforce htr
    unfold stepSetCondition
    rw [if_neg (by rw [hforce]; simp), htr]
  · intro shi sci g st cs c htr
    unfold stepSetCondition
    by_cases hskip : (st.conditionsSet.contains cs.condition.ctype &&
        !(cs.force.getD false)) = true
    · rw [if_pos hskip]
      exact (Bool.and_eq_true _ _).mp hskip |>.1
    · rw [if_neg hskip, htr]
      exact markSet_contains st.conditionsSet cs.condition.ctype
  · intro shi observed xr fetchExtra st hooks
    exact runHooks_conditionsSet_mono observed xr fetchExtra hooks shi st

/-- C1 witness: a concrete skip (type already set, non-forceful), a concrete
    forceful override with its re-marking, and the table surviving into the
    state after a later hook. -/
theorem dedup_table_policy_witness :
    stepSetCondition 0 0 [] ⟨[], [], false, ["T"], none, 0, [], []⟩
        ⟨none, none, ⟨"T", "True", "R", none⟩⟩ =
      ⟨[], [], false, ["T"], none, 0, [], []⟩ ∧
    stepSetCondition 0 0 [] ⟨[], [], false, ["T"], none, 0, [], []⟩
        ⟨none, some true, ⟨"T", "True", "R", none⟩⟩ =
      { (⟨[], [], false, ["T"], none, 0, [], []⟩ : RunState) with
        conditions := [] ++ [⟨"T", .condTrue, "R", none, .composite⟩],
        conditionsSet := markSet ["T"] "T" } ∧
    (stepSetCondition 0 0 [] ⟨[], [], false, ["T"], none, 0, [], []⟩
        ⟨none, some true, ⟨"T", "True", "R", none⟩⟩).conditionsSet.contains "T" = true ∧
    "A" ∈ (outState (runHooks 0 observed1 objEmpty (.inr [])
        ⟨[], [], false, ["A"], none, 0, [], []⟩ [hookSetA])).conditionsSet :=
  ⟨dedup_table_policy.1 0 0 [] ⟨[], [], false, ["T"], none, 0, [], []⟩
      ⟨none, none, ⟨"T", "True", "R", none⟩⟩ (by decide) rfl,
   dedup_table_policy.2.1 0 0 [] ⟨[], [], false, ["T"], none, 0, [], []⟩
      ⟨none, some true, ⟨"T", "True", "R", none⟩⟩ ⟨"T", .condTrue, "R", none, .composite⟩
      rfl (by decide),
   dedup_table_policy.2.2.1 0 0 [] ⟨[], [], false, ["T"], none, 0, [], []⟩
      ⟨none, some true, ⟨"T", "True", "R", none⟩⟩ ⟨"T", .condTrue, "R", none, .composite⟩
      (by decide),
   dedup_table_policy.2.2.2 0 observed1 objEmpty (.inr [])
      ⟨[], [], false, ["A"], none, 0, [], []⟩ [hookSetA] (by decide)⟩

/-! ## C3: captures of AnyResourceAllConditions come from the winning resource -/

theorem mapGet_isSome_iff (m : StrMap) (k : String) :
    (mapGet m k).isSome = true ↔ ∃ p ∈ m, p.fst = k := by
  induction m with
  | nil => simp [mapGet]
  | cons p rest ih =>
    obtain ⟨k0, v0⟩ := p
    by_cases h : k0 = k
    · subst h
      simp [mapGet]
    · simp only [mapGet, if_neg h, List.mem_cons, ih]
      constructor
      · rintro ⟨q, hq, hqk⟩
        exact ⟨q, Or.inr hq, hqk⟩
      · rintro ⟨q, hq | hq, hqk⟩
        · subst hq
          exact absurd hqk h
        · exact ⟨q, hq, hqk⟩

theorem mapsCopy_isSome_left (dst src : StrMap) (k : String)
    (h : (mapGet dst k).isSome = true) : (mapGet (mapsCopy dst src) k).isSome = true := by
  rw [mapGet_mapsCopy]
  cases lastWrite src k with
  | none => exact h
  | some v => rfl

theorem mapsCopy_isSome_right (dst src : StrMap) (k : String)
    (h : (mapGet src k).isSome = true) : (mapGet (mapsCopy dst src) k).isSome = true := by
  rw [mapGet_mapsCopy]
  have hlw : (lastWrite src k).isSome = true :=
    (lastWrite_isSome src k).mpr ((mapGet_isSome_iff src k).mp h)
  cases hc : lastWrite src k with
  | none =>
    rw [hc] at hlw
    cases hlw
  | some v => rfl

theorem matchCM_groups_key_pattern (cm : ConditionMatcher) (r : ConditionedObject)
    (k : String) (h : (mapGet (matchCM cm r).groups k).isSome = true) :
    ∃ re, cm.message = some (.valid re) ∧ k ∈ re.subexpNames := by
  unfold matchCM matchCond at h
  by_cases h1 : cm.reason.any (fun x => x != (getCondition r cm.ctype).reason)
  · rw [if_pos h1] at h
    simp [mapGet] at h
  · rw [if_neg h1] at h
    by_cases h2 : cm.status.any (fun x => x != (getCondition r cm.ctype).status)
    · rw [if_pos h2] at h
      simp [mapGet] at h
    · rw [if_neg h2] at h
      cases hmsg : cm.message with
      | none =>
        rw [hmsg] at h
        simp [mapGet] at h
      | some pat =>
        cases pat with
        | invalid e =>
          rw [hmsg] at h
          simp [mapGet] at h
        | valid re =>
          simp only [hmsg] at h
          cases hfind : re.findStringSubmatch (getCondition r cm.ctype).message with
          | none =>
            simp only [hfind] at h
            simp [mapGet] at h
          | some vals =>
            simp only [hfind] at h
            rw [mapGet_buildGroups, lastWrite_isSome] at h
            obtain ⟨p, hp, hpk⟩ := h
            exact ⟨re, rfl, hpk ▸ (List.of_mem_zip hp).1⟩

theorem matchCM_matched_key_of_names (cm : ConditionMatcher) (r : ConditionedObject)
    (re : GoRegex) (k : String) (hmsg : cm.message = some (.valid re))
    (hm : (matchCM cm r).matched = true) (hk : k ∈ re.subexpNames) :
    (mapGet (matchCM cm r).groups k).isSome = true := by
  unfold matchCM matchCond at hm ⊢
  by_cases h1 : cm.reason.any (fun x => x != (getCondition r cm.ctype).reason)
  · rw [if_pos h1] at hm
    cases hm
  · rw [if_neg h1] at hm ⊢
    by_cases h2 : cm.status.any (fun x => x != (getCondition r cm.ctype).status)
    · rw [if_pos h2] at hm
      cases hm
    · rw [if_neg h2] at hm ⊢
      simp only [hmsg] at hm ⊢
      cases hfind : re.findStringSubmatch (getCondition r cm.ctype).message with
      | none =>
        simp only [hfind] at hm
        cases hm
      | some vals =>
        simp only [hfind]
        rw [mapGet_buildGroups, lastWrite_isSome]
        have hlen := re.find_length _ _ hfind
        have hfst : (re.subexpNames.zip vals).map Prod.fst = re.subexpNames :=
          List.map_fst_zip _ _ hlen.symm.le
        rw [← hfst] at hk
        obtain ⟨p, hp, hpk⟩ := List.mem_map.mp hk
        exact ⟨p, hp, hpk⟩

theorem mapGet_foldl_copy {α : Type} (g : α → StrMap) (l : List α) :
    ∀ (acc : StrMap) (k : String),
      mapGet (l.foldl (fun a x => mapsCopy a (g x)) acc) k =
        match mapGet (l.foldl (fun a x => mapsCopy a (g x)) []) k with
        | some v => some v
        | none => mapGet acc k := by
  induction l with
  | nil =>
    intro acc k
    simp [mapGet]
  | cons x rest ih =>
    intro acc k
    simp only [List.foldl_cons]
    rw [ih (mapsCopy acc (g x)) k, ih (mapsCopy [] (g x)) k]
    cases mapGet (rest.foldl (fun a y => mapsCopy a (g y)) []) k with
    | some v => rfl
    | none =>
      simp only
      rw [mapGet_mapsCopy, mapGet_mapsCopy]
      cases lastWrite (g x) k with
      | some v => rfl
      | none => simp [mapGet]

theorem resourceGroupsUnion_isSome_of_mem (cms : List ConditionMatcher)
    (r : ConditionedObject) (cm : ConditionMatcher) (k : String) (hmem : cm ∈ cms)
    (h : (mapGet (matchCM cm r).groups k).isSome = true) :
    (mapGet (resourceGroupsUnion cms r) k).isSome = true := by
  induction cms with
  | nil => cases hmem
  | cons c0 rest ih =>
    unfold resourceGroupsUnion
    rw [List.foldl_cons, mapGet_foldl_copy]
    rcases List.mem_cons.mp hmem with hc | hc
    · subst hc
      cases hA : mapGet (rest.foldl (fun a x => mapsCopy a (matchCM x r).groups) []) k with
      | some v => rfl
      | none =>
        simp only
        exact mapsCopy_isSome_right [] (matchCM cm r).groups k h
    · have hrest := ih hc
      unfold resourceGroupsUnion at hrest
      cases hA : mapGet (rest.foldl (fun a x => mapsCopy a (matchCM x r).groups) []) k with
      | some v => rfl
      | none =>
        rw [hA] at hrest
        cases hrest

theorem winner_covers_key (cms : List ConditionMatcher) (w : ConditionedObject) (k : String)
    (hall : matchesAllCMs cms w) (hkey : keyInSomeCM cms k) :
    (mapGet (resourceGroupsUnion cms w) k).isSome = true := by
  obtain ⟨cm, hmem, re, hmsg, hk⟩ := hkey
  have hm := (hall cm hmem).1
  exact resourceGroupsUnion_isSome_of_mem cms w cm k hmem
    (matchCM_matched_key_of_names cm w re k hmsg hm hk)

theorem anyAllInner_true_char (r : ConditionedObject) (cms : List ConditionMatcher) :
    ∀ (acc acc1 : StrMap), anyAllInner cms r acc = .inr (true, acc1) →
      matchesAllCMs cms r ∧
      ∀ k, mapGet acc1 k =
        match mapGet (resourceGroupsUnion cms r) k with
        | some v => some v
        | none => mapGet acc k := by
  induction cms with
  | nil =>
    intro acc acc1 h
    rw [anyAllInner] at h
    cases h
    constructor
    · intro cm hcm
      cases hcm
    · intro k
      simp [resourceGroupsUnion, mapGet]
  | cons cm rest ih =>
    intro acc acc1 h
    rw [anyAllInner] at h
    cases herr : (matchCM cm r).err with
    | some e =>
      simp only [herr] at h
      cases h
    | none =>
      simp only [herr] at h
      by_cases hm : (matchCM cm r).matched = true
      · rw [if_neg (by simp [hm])] at h
        obtain ⟨hall, hchar⟩ := ih (mapsCopy acc (matchCM cm r).groups) acc1 h
        constructor
        · intro c hc
          rcases List.mem_cons.mp hc with hc | hc
          · subst hc
            exact ⟨hm, herr⟩
          · exact hall c hc
        · intro k
          have hRGU : mapGet (resourceGroupsUnion (cm :: rest) r) k =
              match mapGet (resourceGroupsUnion rest r) k with
              | some v => some v
              | none => mapGet (mapsCopy [] (matchCM cm r).groups) k := by
            unfold resourceGroupsUnion
            rw [List.foldl_cons, mapGet_foldl_copy]
          rw [hchar k, hRGU]
          cases hA : mapGet (resourceGroupsUnion rest r) k with
          | some v => rfl
          | none =>
            simp only
            rw [mapGet_mapsCopy, mapGet_mapsCopy]
            cases lastWrite (matchCM cm r).groups k with
            | some v => rfl
            | none => simp [mapGet]
      · rw [if_pos (by simp [hm])] at h
        simp at h

theorem anyAllInner_false_char (r : ConditionedObject) (cms : List ConditionMatcher) :
    ∀ (acc acc1 : StrMap), anyAllInner cms r acc = .inr (false, acc1) →
      (¬ matchesAllCMs cms r) ∧
      ∀ k, (mapGet acc1 k).isSome = true →
        (mapGet acc k).isSome = true ∨
        ∃ cm ∈ cms, (mapGet (matchCM cm r).groups k).isSome = true := by
  induction cms with
  | nil =>
    intro acc acc1 h
    rw [anyAllInner] at h
    simp at h
  | cons cm rest ih =>
    intro acc acc1 h
    rw [anyAllInner] at h
    cases herr : (matchCM cm r).err with
    | some e =>
      simp only [herr] at h
      cases h
    | none =>
      simp only [herr] at h
      by_cases hm : (matchCM cm r).matched = true
      · rw [if_neg (by simp [hm])] at h
        obtain ⟨hnall, hkeys⟩ := ih (mapsCopy acc (matchCM cm r).groups) acc1 h
        constructor
        · intro hall
          exact hnall (fun c hc => hall c (List.mem_cons_of_mem cm hc))
        · intro k hk
          rcases hkeys k hk with hcopy | hrest
          · rw [mapGet_mapsCopy] at hcopy
            cases hlw : lastWrite (matchCM cm r).groups k with
            | some v =>
              refine Or.inr ⟨cm, List.mem_cons_self cm rest, ?_⟩
              rw [mapGet_isSome_iff]
              exact (lastWrite_isSome _ _).mp (by rw [hlw]; rfl)
            | none =>
              rw [hlw] at hcopy
              exact Or.inl hcopy
          · obtain ⟨c, hc, hcg⟩ := hrest
            exact Or.inr ⟨c, List.mem_cons_of_mem cm hc, hcg⟩
      · rw [if_pos (by simp [hm])] at h
        cases h
        constructor
        · intro hall
          exact hm (hall cm (List.mem_cons_self cm rest)).1
        · intro k hk
          exact Or.inl hk

theorem anyAllLoop_winner (cms : List ConditionMatcher) (g : StrMap) :
    ∀ (rm : RObjs) (acc : StrMap),
      (∀ k, (mapGet acc k).isSome = true → keyInSomeCM cms k) →
      anyAllLoop cms rm acc = ⟨true, g, none⟩ →
      ∃ pre w post, rm = pre ++ w :: post ∧
        (∀ p ∈ pre, ¬ matchesAllCMs cms p.snd) ∧
        matchesAllCMs cms w.snd ∧
        ∀ k, mapGet g k = mapGet (resourceGroupsUnion cms w.snd) k := by
  intro rm
  induction rm with
  | nil =>
    intro acc hInv h
    rw [anyAllLoop] at h
    simp at h
  | cons p rest ih =>
    intro acc hInv h
    obtain ⟨kr, r⟩ := p
    rw [anyAllLoop] at h
    cases hin : anyAllInner cms r acc with
    | inl e =>
      simp only [hin] at h
      simp at h
    | inr q =>
      obtain ⟨b, acc1⟩ := q
      cases b with
      | false =>
        simp only [hin] at h
        obtain ⟨hnall, hkeys⟩ := anyAllInner_false_char r cms acc acc1 hin
        have hInv1 : ∀ k, (mapGet acc1 k).isSome = true → keyInSomeCM cms k := by
          intro k hk
          rcases hkeys k hk with hl | hcg
          · exact hInv k hl
          · obtain ⟨c, hc, hcgs⟩ := hcg
            obtain ⟨re, hmsg, hkre⟩ := matchCM_groups_key_pattern c r k hcgs
            exact ⟨c, hc, re, hmsg, hkre⟩
        obtain ⟨pre, w, post, hsplit, hprefail, hwall, hchar⟩ := ih acc1 hInv1 h
        refine ⟨(kr, r) :: pre, w, post, by rw [hsplit, List.cons_append], ?_, hwall, hchar⟩
        intro q hq
        rcases List.mem_cons.mp hq with hq | hq
        · subst hq
          exact hnall
        · exact hprefail q hq
      | true =>
        simp only [hin] at h
        obtain ⟨hall, hchar⟩ := anyAllInner_true_char r cms acc acc1 hin
        have hg : acc1 = g := by
          have := congrArg MatchOut.groups h
          exact this
        subst hg
        refine ⟨[], (kr, r), rest, rfl, ?_, hall, ?_⟩
        · intro q hq
          cases hq
        · intro k
          rw [hchar k]
          cases hA : mapGet (resourceGroupsUnion cms r) k with
          | some v => rfl
          | none =>
            simp only
            cases hacc : mapGet acc k with
            | none => rfl
            | some v =>
              have hks : keyInSomeCM cms k := hInv k (by rw [hacc]; rfl)
              have hcov := winner_covers_key cms r k hall hks
              rw [hA] at hcov
              cases hcov

/-- C3: for every AnyResourceAllConditions evaluation that succeeds, the
    returned captured-group map equals, as a map, the union of the groups
    captured by the predicates against the single winning resource (the first
    resource for which all predicates match); every partially-matching earlier
    resource wrote only keys the winner rewrites, so no captured group of
    another resource survives in the result. -/
theorem anyAll_groups_from_winner (cms : List ConditionMatcher) (rm : RObjs) (g : StrMap)
    (hres : anyResourceMatchesAllConditions cms rm = ⟨true, g, none⟩) :
    ∃ pre w post, rm = pre ++ w :: post ∧
      (∀ p ∈ pre, ¬ matchesAllCMs cms p.snd) ∧
      matchesAllCMs cms w.snd ∧
      ∀ k, mapGet g k = mapGet (resourceGroupsUnion cms w.snd) k :=
  anyAllLoop_winner cms g rm [] (fun k hk => by simp [mapGet] at hk) hres

/-- C3 witness: resource A partially matches (capturing x=va) and fails the
    second predicate; resource B wins, and the returned map agrees with B's
    own captured groups on every key. -/
theorem anyAll_groups_from_winner_witness :
    ∃ pre w post, ([("A", objA), ("B", objB)] : RObjs) = pre ++ w :: post ∧
      (∀ p ∈ pre, ¬ matchesAllCMs [cmP1, cmP2] p.snd) ∧
      matchesAllCMs [cmP1, cmP2] w.snd ∧
      ∀ k, mapGet [("x", "vb")] k = mapGet (resourceGroupsUnion [cmP1, cmP2] w.snd) k :=
  anyAll_groups_from_winner [cmP1, cmP2] [("A", objA), ("B", objB)] [("x", "vb")] (by decide)

end FST
